import Mathlib

/-!
Verification development for the gomodgraph dependency-graph core
(internal/graph/graph.go and its input model from internal/mods/mods.go).

The Go code manipulates a pointer-linked graph: ModuleNode values referenced
by pointers, DependencyVertex values referenced by pointers stored in the
Requires / RequiredBy slices.  We embed this with an explicit heap: node
pointers and vertex pointers become natural-number ids, and the heap maps
each id to the current record stored at that address.  Slice copies in Go
(as performed by the shallow struct copy in clone and by the center-node
copy in SubgraphFrom) share the underlying vertex pointers; in the embedding
the id lists are shared, which models exactly that aliasing.
-/

/-- One module in a scan: the ModuleNode struct of graph.go.  Requires and
RequiredBy hold vertex ids (Go: slices of DependencyVertex pointers). -/
structure ModuleNode where
  ModuleName : String := ""
  Version : String := ""
  GoModVersion : String := ""
  Requires : List Nat := []
  RequiredBy : List Nat := []
  Highlight : Bool := false
deriving Repr, DecidableEq, Inhabited

/-- One directed, versioned edge: the DependencyVertex struct of graph.go.
targetModule is a node id (Go: a ModuleNode pointer). -/
structure DependencyVertex where
  targetModule : Nat := 0
  targetVersion : String := ""
deriving Repr, DecidableEq, Inhabited

/-- The mutable store standing for the Go heap: node ids and vertex ids map
to the record currently at that address; nextNode / nextVertex are the next
fresh addresses. -/
structure Heap where
  node : Nat → ModuleNode
  vertex : Nat → DependencyVertex
  nextNode : Nat
  nextVertex : Nat

def Heap.empty : Heap :=
  { node := fun _ => default, vertex := fun _ => default, nextNode := 0, nextVertex := 0 }

def Heap.setNode (h : Heap) (i : Nat) (d : ModuleNode) : Heap :=
  { h with node := fun j => if j = i then d else h.node j }

def Heap.setVertex (h : Heap) (i : Nat) (d : DependencyVertex) : Heap :=
  { h with vertex := fun j => if j = i then d else h.vertex j }

/-- Allocate a fresh ModuleNode (Go: &ModuleNode{...}); returns its id. -/
def Heap.allocNode (h : Heap) (d : ModuleNode) : Nat × Heap :=
  (h.nextNode,
    { node := fun j => if j = h.nextNode then d else h.node j,
      vertex := h.vertex,
      nextNode := h.nextNode + 1,
      nextVertex := h.nextVertex })

/-- Allocate a fresh DependencyVertex (Go: &DependencyVertex{...}). -/
def Heap.allocVertex (h : Heap) (d : DependencyVertex) : Nat × Heap :=
  (h.nextVertex,
    { node := h.node,
      vertex := fun j => if j = h.nextVertex then d else h.vertex j,
      nextNode := h.nextNode,
      nextVertex := h.nextVertex + 1 })

/-- (*ModuleNode).addDependency of graph.go: appends a forward vertex to
m.Requires and the mirrored backward vertex to requires.RequiredBy, both in
this single operation. -/
def addDependency (h : Heap) (m requiresId : Nat) (version : String) : Heap :=
  let fwd := h.allocVertex { targetModule := requiresId, targetVersion := version }
  let h1 := fwd.2
  let md := h1.node m
  let h2 := h1.setNode m { md with Requires := md.Requires ++ [fwd.1] }
  let bwd := h2.allocVertex { targetModule := m, targetVersion := version }
  let h3 := bwd.2
  let rd := h3.node requiresId
  h3.setNode requiresId { rd with RequiredBy := rd.RequiredBy ++ [bwd.1] }

/-- (*ModuleNode).clone of graph.go: a fresh node holding the same field
values.  The Requires / RequiredBy id lists are shared with the original,
exactly like the Go slice headers copied by the struct literal. -/
def clone (h : Heap) (i : Nat) : Nat × Heap :=
  h.allocNode (h.node i)

/-- The name-to-node mapping (Go: map[string]*ModuleNode), kept as an
association list so that one concrete iteration order is fixed; Go map
iteration order is arbitrary, and order-independence of the observable
output is proved separately. -/
abbrev ModMap := List (String × Nat)

def mapLookup : ModMap → String → Option Nat
  | [], _ => none
  | p :: t, k => if p.1 = k then some p.2 else mapLookup t k

/-- Go map assignment m[k] = v: overwrite the binding if the key is present,
otherwise add a new binding. -/
def mapInsert (m : ModMap) (k : String) (v : Nat) : ModMap :=
  if (mapLookup m k).isSome then m.map (fun p => if p.1 = k then (k, v) else p)
  else m ++ [(k, v)]

def mapValues (m : ModMap) : List Nat :=
  m.map (fun p => p.2)

/-- Node id i is a value of the mapping (the node is a member of the graph). -/
def inMap (m : ModMap) (i : Nat) : Prop :=
  i ∈ mapValues m

instance (m : ModMap) (i : Nat) : Decidable (inMap m i) := by
  unfold inMap; infer_instance

/-- The DependencyGraph struct of graph.go. -/
structure DependencyGraph where
  modulesList : List Nat
  modulesMap : ModMap
  isSubgraph : Bool
deriving Repr, DecidableEq

/-- Lexicographic less-than on character sequences, by code point: the order
Go computes for its built-in string comparison (byte-wise lexicographic on
UTF-8, which coincides with code-point order). -/
def stringLt : List Char → List Char → Bool
  | [], [] => false
  | [], _ :: _ => true
  | _ :: _, [] => false
  | a :: s, b :: t =>
      if a.toNat < b.toNat then true
      else if b.toNat < a.toNat then false
      else stringLt s t

/-- The non-strict comparison induced by the strict one the Go comparator
closure uses: a comes no later than b when b's name is not less than a's. -/
def nodeNameLe (h : Heap) (a b : Nat) : Bool :=
  !(stringLt (h.node b).ModuleName.data (h.node a).ModuleName.data)

/-- NewDependencyGraph of graph.go: the list holds the map's nodes brought
into deterministic order by a stable sort on ModuleName (Go:
sort.SliceStable with a less-than comparison; a stable sort's output is
uniquely determined by the comparator and the input sequence, so any stable
sorting algorithm is the same function). -/
def NewDependencyGraph (h : Heap) (modulesMap : ModMap) (isSubgraph : Bool) : DependencyGraph :=
  { modulesList :=
      (mapValues modulesMap).insertionSort (fun a b => nodeNameLe h a b = true),
    modulesMap := modulesMap,
    isSubgraph := isSubgraph }

/-- One parsed requirement line of a go.mod file (golang.org/x/mod
modfile.Require restricted to the fields the graph core reads). -/
structure Require where
  path : String
  version : String
  indirect : Bool
deriving Repr, DecidableEq

/-- A parsed go.mod file (modfile.File restricted to the fields the graph
core reads).  module = none models a file whose Module directive is nil;
go = none models a nil Go directive. -/
structure ModFile where
  module : Option String
  go : Option String
  require : List Require
deriving Repr, DecidableEq

/-- mods.Module: a parsed mod file together with the module's latest
released version.  (Named with its package qualifier because Module is
taken by the algebra library.) -/
structure ModsModule where
  ModFile : ModFile
  Version : String
deriving Repr, DecidableEq

/-- One iteration of the first pass of BuildDependencyGraph: a record
without a module directive is logged and skipped; otherwise a node is
allocated and bound in the map (a duplicate declared name overwrites the
earlier binding). -/
def buildPass1Step (acc : ModMap × Heap) (mf : ModsModule) : ModMap × Heap :=
  match mf.ModFile.module with
  | none => acc
  | some moduleName =>
      let goVersion := mf.ModFile.go.getD "n.a."
      let alloc := acc.2.allocNode
        { ModuleName := moduleName, Version := mf.Version, GoModVersion := goVersion }
      (mapInsert acc.1 moduleName alloc.1, alloc.2)

/-- First pass of BuildDependencyGraph: populate the map with one node per
record carrying a module directive. -/
def buildPass1 (modFiles : List ModsModule) : ModMap × Heap :=
  modFiles.foldl buildPass1Step ([], Heap.empty)

/-- One requirement of one record in the second pass: skip indirect
requirements, skip targets outside the considered mapping, and add the
bidirectional edge pair otherwise. -/
def addEdgeStep (mmap : ModMap) (nodeId : Nat) (h : Heap) (req : Require) : Heap :=
  if req.indirect then h
  else
    match mapLookup mmap req.path with
    | none => h
    | some targetId => addDependency h nodeId targetId req.version

/-- Inner loop of the second pass over one record's requirement list. -/
def addModuleEdges (mmap : ModMap) (nodeId : Nat) (reqs : List Require) (h : Heap) : Heap :=
  reqs.foldl (addEdgeStep mmap nodeId) h

/-- One iteration of the second pass: records without a module directive are
skipped again; each remaining record resolves its node in the mapping and
contributes its requirements.  The none branch of the node lookup is
unreachable because the first pass inserted every declared name. -/
def buildPass2Step (mmap : ModMap) (h : Heap) (mf : ModsModule) : Heap :=
  match mf.ModFile.module with
  | none => h
  | some moduleName =>
      match mapLookup mmap moduleName with
      | none => h
      | some nodeId => addModuleEdges mmap nodeId mf.ModFile.require h

/-- Second pass of BuildDependencyGraph: add the edges. -/
def buildPass2 (modFiles : List ModsModule) (mmap : ModMap) (h : Heap) : Heap :=
  modFiles.foldl (buildPass2Step mmap) h

/-- BuildDependencyGraph of graph.go, starting from a fresh heap. -/
def BuildDependencyGraph (modFiles : List ModsModule) : DependencyGraph × Heap :=
  let pass1 := buildPass1 modFiles
  let h := buildPass2 modFiles pass1.1 pass1.2
  (NewDependencyGraph h pass1.1 false, h)

/-- (*DependencyGraph).LookupNode: nil pointer becomes none. -/
def LookupNode (d : DependencyGraph) (moduleName : String) : Option Nat :=
  mapLookup d.modulesMap moduleName

/-- First loop of SubgraphFrom: every module required by the center is
cloned with its dependencies pruned, and the center's own requires-vertex is
repointed at the clone (Go: dependency.targetModule = cloneModule — this
writes through the vertex pointer shared with the original graph). -/
def subgraphRequiresStep (st : ModMap × Heap) (vid : Nat) : ModMap × Heap :=
  let h := st.2
  let tgt := (h.vertex vid).targetModule
  let tdata := h.node tgt
  let alloc := h.allocNode { tdata with Requires := [] }
  let m1 := mapInsert st.1 tdata.ModuleName alloc.1
  let h1 := alloc.2.setVertex vid { alloc.2.vertex vid with targetModule := alloc.1 }
  (m1, h1)

/-- The first loop, folded over the center's Requires vertex ids. -/
def subgraphRequiresLoop (centerRequires : List Nat) (st : ModMap × Heap) : ModMap × Heap :=
  centerRequires.foldl subgraphRequiresStep st

/-- Second loop of SubgraphFrom: every module requiring the center is cloned
with all dependencies replaced by the single freshly allocated edge back to
the center copy, carrying the same required version. -/
def subgraphRequiredByStep (centerId : Nat) (st : ModMap × Heap) (vid : Nat) : ModMap × Heap :=
  let h := st.2
  let vd := h.vertex vid
  let tdata := h.node vd.targetModule
  let allocV := h.allocVertex { targetModule := centerId, targetVersion := vd.targetVersion }
  let allocN := allocV.2.allocNode { tdata with Requires := [allocV.1] }
  (mapInsert st.1 tdata.ModuleName allocN.1, allocN.2)

/-- The second loop, folded over the center's RequiredBy vertex ids. -/
def subgraphRequiredByLoop (centerId : Nat) (centerRequiredBy : List Nat)
    (st : ModMap × Heap) : ModMap × Heap :=
  centerRequiredBy.foldl (subgraphRequiredByStep centerId) st

/-- (*DependencyGraph).SubgraphFrom of graph.go.  The Go function panics
when invoked on a graph whose isSubgraph flag is set; the panic is modelled
as none.  copiedNode := *centerNode is a shallow struct copy, so the copy's
Requires and RequiredBy lists are the very vertex ids of the original
center node. -/
def SubgraphFrom (d : DependencyGraph) (h : Heap) (centerNode : Nat) :
    Option (DependencyGraph × Heap) :=
  if d.isSubgraph then none
  else
    let cdata := h.node centerNode
    let alloc := h.allocNode { cdata with Highlight := true }
    let m0 : ModMap := mapInsert [] cdata.ModuleName alloc.1
    let st1 := subgraphRequiresLoop cdata.Requires (m0, alloc.2)
    let st2 := subgraphRequiredByLoop alloc.1 cdata.RequiredBy st1
    some (NewDependencyGraph st2.2 st2.1 true, st2.2)

/-- strings.TrimPrefix. -/
def trimPre (s pre : String) : String :=
  if s.startsWith pre then s.drop pre.length else s

/-- UTF-8 encoding of one character, as byte values. -/
def utf8Bytes (c : Char) : List Nat :=
  let n := c.toNat
  if n < 128 then [n]
  else if n < 2048 then [192 + n / 64, 128 + n % 64]
  else if n < 65536 then [224 + n / 4096, 128 + n / 64 % 64, 128 + n % 64]
  else [240 + n / 262144, 128 + n / 4096 % 64, 128 + n / 64 % 64, 128 + n % 64]

/-- Bytes url.QueryEscape leaves unescaped: alphanumerics and -_.~ . -/
def isUnreservedByte (b : Nat) : Bool :=
  decide (65 ≤ b ∧ b ≤ 90) || decide (97 ≤ b ∧ b ≤ 122) ||
    decide (48 ≤ b ∧ b ≤ 57) || decide (b = 45) || decide (b = 95) ||
    decide (b = 46) || decide (b = 126)

def hexDigit (n : Nat) : Char :=
  if n < 10 then Char.ofNat (48 + n) else Char.ofNat (55 + n)

def escapeByte (b : Nat) : String :=
  if isUnreservedByte b then String.singleton (Char.ofNat b)
  else if b = 32 then "+"
  else String.mk ['%', hexDigit (b / 16), hexDigit (b % 16)]

/-- url.QueryEscape: percent-encodes every reserved byte of the UTF-8 form,
turning spaces into plus signs. -/
def queryEscape (s : String) : String :=
  String.join ((s.data.flatMap utf8Bytes).map escapeByte)

/-- The attributes Render sets on one Graphviz node.  color is none when
SetColor is not called (the non-highlighted branch). -/
structure RenderedNode where
  name : String
  label : String
  style : String
  shape : String
  color : Option String
  fillColor : String
  url : Option String
deriving Repr, DecidableEq

/-- The attributes Render sets on one Graphviz edge (the constant arrow size
is omitted: it is a float literal never varied). -/
structure RenderedEdge where
  id : String
  label : String
  color : String
  fontColor : String
deriving Repr, DecidableEq

/-- The node statement Render emits for one module (goRegistry is the
goRegistryPrefix argument of the Go function). -/
def renderNode (h : Heap) (goRegistry : String) (i : Nat) : RenderedNode :=
  let d := h.node i
  let version := if d.Version = "" then "<no version yet>" else d.Version
  let label := trimPre d.ModuleName goRegistry ++ "\n" ++ version ++ " (go" ++ d.GoModVersion ++ ")"
  if d.Highlight then
    { name := d.ModuleName, label := label, style := "filled", shape := "egg",
      color := some "crimson", fillColor := "goldenrod1", url := none }
  else
    { name := d.ModuleName, label := label, style := "filled", shape := "box",
      color := none, fillColor := "floralwhite",
      url := some ("/?mod=" ++ queryEscape d.ModuleName) }

/-- The edge statements Render emits for the Requires list of one module. -/
def renderEdgesOf (h : Heap) (src : Nat) : List RenderedEdge :=
  (h.node src).Requires.map
    (fun vid =>
      let vd := h.vertex vid
      let td := h.node vd.targetModule
      let color :=
        if vd.targetVersion ≠ td.Version ∧ td.Version ≠ "" then "darkorange" else "dimgrey"
      { id := (h.node src).ModuleName ++ ":" ++ td.ModuleName ++ ":" ++ vd.targetVersion,
        label := vd.targetVersion, color := color, fontColor := color })

/-- The node and edge sequences Render hands to the external Graphviz
engine, in emission order (first all nodes, then all edges, both following
modulesList). -/
structure RenderOutput where
  nodes : List RenderedNode
  edges : List RenderedEdge
deriving Repr, DecidableEq

/-- (*DependencyGraph).Render of graph.go, restricted to the node/edge
construction and styling it performs; the rasterization by the external
engine is out of scope. -/
def Render (d : DependencyGraph) (h : Heap) (goRegistry : String) : RenderOutput :=
  { nodes := d.modulesList.map (renderNode h goRegistry),
    edges := d.modulesList.flatMap (renderEdgesOf h) }

/-! ### Basic heap laws -/

@[simp]
theorem Heap.node_setNode (h : Heap) (i j : Nat) (d : ModuleNode) :
    (h.setNode i d).node j = if j = i then d else h.node j := rfl

@[simp]
theorem Heap.vertex_setNode (h : Heap) (i : Nat) (d : ModuleNode) :
    (h.setNode i d).vertex = h.vertex := rfl

@[simp]
theorem Heap.nextNode_setNode (h : Heap) (i : Nat) (d : ModuleNode) :
    (h.setNode i d).nextNode = h.nextNode := rfl

@[simp]
theorem Heap.nextVertex_setNode (h : Heap) (i : Nat) (d : ModuleNode) :
    (h.setNode i d).nextVertex = h.nextVertex := rfl

@[simp]
theorem Heap.vertex_setVertex (h : Heap) (i j : Nat) (d : DependencyVertex) :
    (h.setVertex i d).vertex j = if j = i then d else h.vertex j := rfl

@[simp]
theorem Heap.node_setVertex (h : Heap) (i : Nat) (d : DependencyVertex) :
    (h.setVertex i d).node = h.node := rfl

@[simp]
theorem Heap.nextNode_setVertex (h : Heap) (i : Nat) (d : DependencyVertex) :
    (h.setVertex i d).nextNode = h.nextNode := rfl

@[simp]
theorem Heap.nextVertex_setVertex (h : Heap) (i : Nat) (d : DependencyVertex) :
    (h.setVertex i d).nextVertex = h.nextVertex := rfl

@[simp]
theorem Heap.fst_allocNode (h : Heap) (d : ModuleNode) :
    (h.allocNode d).1 = h.nextNode := rfl

@[simp]
theorem Heap.node_allocNode (h : Heap) (d : ModuleNode) (j : Nat) :
    (h.allocNode d).2.node j = if j = h.nextNode then d else h.node j := rfl

@[simp]
theorem Heap.vertex_allocNode (h : Heap) (d : ModuleNode) :
    (h.allocNode d).2.vertex = h.vertex := rfl

@[simp]
theorem Heap.nextNode_allocNode (h : Heap) (d : ModuleNode) :
    (h.allocNode d).2.nextNode = h.nextNode + 1 := rfl

@[simp]
theorem Heap.nextVertex_allocNode (h : Heap) (d : ModuleNode) :
    (h.allocNode d).2.nextVertex = h.nextVertex := rfl

@[simp]
theorem Heap.fst_allocVertex (h : Heap) (d : DependencyVertex) :
    (h.allocVertex d).1 = h.nextVertex := rfl

@[simp]
theorem Heap.vertex_allocVertex (h : Heap) (d : DependencyVertex) (j : Nat) :
    (h.allocVertex d).2.vertex j = if j = h.nextVertex then d else h.vertex j := rfl

@[simp]
theorem Heap.node_allocVertex (h : Heap) (d : DependencyVertex) :
    (h.allocVertex d).2.node = h.node := rfl

@[simp]
theorem Heap.nextNode_allocVertex (h : Heap) (d : DependencyVertex) :
    (h.allocVertex d).2.nextNode = h.nextNode := rfl

@[simp]
theorem Heap.nextVertex_allocVertex (h : Heap) (d : DependencyVertex) :
    (h.allocVertex d).2.nextVertex = h.nextVertex + 1 := rfl

/-! ### Laws of the name-to-node mapping -/

def mapKeys (m : ModMap) : List String :=
  m.map (fun p => p.1)

theorem mapLookup_isSome_iff (m : ModMap) (k : String) :
    (mapLookup m k).isSome ↔ k ∈ mapKeys m := by
  induction m with
  | nil => simp [mapLookup, mapKeys]
  | cons p t ih =>
      by_cases hk : p.1 = k
      · simp [mapLookup, mapKeys, hk]
      · simp only [mapLookup, hk, if_false, mapKeys, List.map_cons, List.mem_cons]
        rw [show (List.map (fun p => p.1) t) = mapKeys t from rfl, ← ih]
        constructor
        · intro hmem; exact Or.inr hmem
        · intro hmem
          rcases hmem with hh | hh
          · exact absurd hh.symm hk
          · exact hh

theorem mapLookup_replace (m : ModMap) (k : String) (v : Nat) (k' : String) :
    mapLookup (m.map (fun p => if p.1 = k then (k, v) else p)) k' =
      if k' = k then (if (mapLookup m k).isSome then some v else none)
      else mapLookup m k' := by
  induction m with
  | nil => simp [mapLookup]
  | cons p t ih =>
      by_cases hpk : p.1 = k
      · by_cases hk : k' = k
        · subst hk; simp [mapLookup, hpk, ih]
        · have hkk : ¬ k = k' := fun hh => hk hh.symm
          simp [mapLookup, hpk, hk, ih, hkk]
      · by_cases hpk' : p.1 = k'
        · have hk : ¬ k' = k := by
            intro hh
            exact hpk (hpk'.trans hh)
          simp [mapLookup, hpk, hpk', hk]
        · simp [mapLookup, hpk, hpk', ih]

theorem mapLookup_append_single (m : ModMap) (k : String) (v : Nat) (k' : String) :
    mapLookup (m ++ [(k, v)]) k' =
      if (mapLookup m k').isSome then mapLookup m k'
      else if k = k' then some v else none := by
  induction m with
  | nil => simp [mapLookup]
  | cons p t ih =>
      by_cases hpk : p.1 = k' <;> simp [mapLookup, hpk, ih]

theorem mapLookup_mapInsert (m : ModMap) (k : String) (v : Nat) (k' : String) :
    mapLookup (mapInsert m k v) k' = if k' = k then some v else mapLookup m k' := by
  unfold mapInsert
  by_cases hs : (mapLookup m k).isSome
  · rw [if_pos hs, mapLookup_replace]
    by_cases hk : k' = k <;> simp [hk, hs]
  · rw [if_neg hs, mapLookup_append_single]
    by_cases hk : k' = k
    · subst hk
      simp only [hs, if_false, if_pos rfl, if_true]
      simp only [Option.not_isSome_iff_eq_none] at hs
      simp [hs]
    · by_cases hs' : (mapLookup m k').isSome
      · simp [hk, hs']
      · have hkk : ¬ k = k' := fun hh => hk hh.symm
        simp only [Option.not_isSome_iff_eq_none] at hs'
        simp [hk, hs', hkk]

theorem mapKeys_mapInsert (m : ModMap) (k : String) (v : Nat) :
    mapKeys (mapInsert m k v) =
      if (mapLookup m k).isSome then mapKeys m else mapKeys m ++ [k] := by
  unfold mapInsert
  by_cases hs : (mapLookup m k).isSome
  · rw [if_pos hs, if_pos hs]
    unfold mapKeys
    rw [List.map_map]
    refine List.map_congr_left ?_
    intro p _
    by_cases hpk : p.1 = k <;> simp [hpk]
  · rw [if_neg hs, if_neg hs]
    simp [mapKeys]

theorem mapKeys_nodup_mapInsert (m : ModMap) (k : String) (v : Nat)
    (hn : (mapKeys m).Nodup) : (mapKeys (mapInsert m k v)).Nodup := by
  rw [mapKeys_mapInsert]
  by_cases hs : (mapLookup m k).isSome
  · simpa [hs]
  · rw [if_neg hs]
    have hk : k ∉ mapKeys m := fun hmem => hs ((mapLookup_isSome_iff m k).mpr hmem)
    simp [List.nodup_append, hn, hk]

theorem mapLookup_mem (m : ModMap) (k : String) (i : Nat)
    (hl : mapLookup m k = some i) : (k, i) ∈ m := by
  induction m with
  | nil => simp [mapLookup] at hl
  | cons p t ih =>
      by_cases hpk : p.1 = k
      · simp only [mapLookup, hpk, if_true, if_pos] at hl
        have hp2 : p.2 = i := Option.some.inj hl
        have hp : (k, i) = p := by
          cases p
          simp only [Prod.mk.injEq]
          exact ⟨hpk.symm, hp2.symm⟩
        rw [hp]
        exact List.mem_cons_self p t
      · simp only [mapLookup, hpk, if_false] at hl
        exact List.mem_cons_of_mem p (ih hl)

theorem mapLookup_inMap (m : ModMap) (k : String) (i : Nat)
    (hl : mapLookup m k = some i) : inMap m i := by
  have := mapLookup_mem m k i hl
  unfold inMap mapValues
  exact List.mem_map.mpr ⟨(k, i), this, rfl⟩

theorem mem_mapLookup_of_nodup (m : ModMap) (k : String) (i : Nat)
    (hn : (mapKeys m).Nodup) (hmem : (k, i) ∈ m) : mapLookup m k = some i := by
  have hcons : ∀ (p : String × Nat) (t : ModMap), mapKeys (p :: t) = p.1 :: mapKeys t :=
    fun p t => rfl
  induction m with
  | nil => simp at hmem
  | cons p t ih =>
      rw [hcons, List.nodup_cons] at hn
      rcases List.mem_cons.mp hmem with hh | ht
      · rw [← hh]; simp [mapLookup]
      · have hpk : p.1 ≠ k := by
          intro heq
          have hkmem : k ∈ mapKeys t :=
            List.mem_map.mpr ⟨(k, i), ht, rfl⟩
          rw [heq] at hn
          exact hn.1 hkmem
        simp [mapLookup, hpk, ih hn.2 ht]

theorem inMap_mapValues (m : ModMap) (i : Nat) (hi : inMap m i) :
    ∃ k, (k, i) ∈ m := by
  unfold inMap mapValues at hi
  rcases List.mem_map.mp hi with ⟨p, hp, hpi⟩
  exact ⟨p.1, by rwa [show (p.1, i) = p from by rw [← hpi]]⟩

/-! ### Order laws of the name comparison -/

theorem stringLt_asymm (s t : List Char) (hst : stringLt s t = true) :
    stringLt t s = false := by
  induction s generalizing t with
  | nil =>
      cases t with
      | nil => simp [stringLt] at hst
      | cons b bt => simp [stringLt]
  | cons a st ih =>
      cases t with
      | nil => simp [stringLt] at hst
      | cons b bt =>
          by_cases hab : a.toNat < b.toNat
          · have hba : ¬ b.toNat < a.toNat := Nat.lt_asymm hab
            simp [stringLt, hab, hba]
          · by_cases hba : b.toNat < a.toNat
            · simp [stringLt, hab, hba] at hst
            · simp only [stringLt, hab, hba, if_false] at hst
              simp [stringLt, hab, hba, ih bt hst]

theorem stringLt_linearity (x z y : List Char) (hxz : stringLt x z = true) :
    stringLt x y = true ∨ stringLt y z = true := by
  induction x generalizing y z with
  | nil =>
      cases z with
      | nil => simp [stringLt] at hxz
      | cons c zt =>
          cases y with
          | nil => right; simp [stringLt]
          | cons b yt => left; simp [stringLt]
  | cons a xt ih =>
      cases z with
      | nil => simp [stringLt] at hxz
      | cons c zt =>
          cases y with
          | nil => right; simp [stringLt]
          | cons b yt =>
              by_cases hab : a.toNat < b.toNat
              · left; simp [stringLt, hab]
              · by_cases hba : b.toNat < a.toNat
                · right
                  have hbc : b.toNat < c.toNat := by
                    by_cases hac : a.toNat < c.toNat
                    · exact Nat.lt_trans hba hac
                    · by_cases hca : c.toNat < a.toNat
                      · simp [stringLt, hac, hca] at hxz
                      · have : a.toNat = c.toNat :=
                          Nat.le_antisymm (Nat.le_of_not_lt hca) (Nat.le_of_not_lt hac)
                        rw [← this]; exact hba
                  simp [stringLt, hbc]
                · have habn : a.toNat = b.toNat :=
                    Nat.le_antisymm (Nat.le_of_not_lt hba) (Nat.le_of_not_lt hab)
                  by_cases hac : a.toNat < c.toNat
                  · right
                    have hbc : b.toNat < c.toNat := by rw [← habn]; exact hac
                    simp [stringLt, hbc]
                  · by_cases hca : c.toNat < a.toNat
                    · simp [stringLt, hac, hca] at hxz
                    · simp only [stringLt, hac, hca, if_false] at hxz
                      rcases ih zt yt hxz with hh | hh
                      · left; simp [stringLt, hab, hba, hh]
                      · right
                        have hbc : ¬ b.toNat < c.toNat := by rw [← habn]; exact hac
                        have hcb : ¬ c.toNat < b.toNat := by rw [← habn]; exact hca
                        simp [stringLt, hbc, hcb, hh]

theorem stringLt_eq_of_not_lt (s t : List Char) (hst : stringLt s t = false)
    (hts : stringLt t s = false) : s = t := by
  induction s generalizing t with
  | nil =>
      cases t with
      | nil => rfl
      | cons b bt => simp [stringLt] at hst
  | cons a st ih =>
      cases t with
      | nil => simp [stringLt] at hts
      | cons b bt =>
          by_cases hab : a.toNat < b.toNat
          · simp [stringLt, hab] at hst
          · by_cases hba : b.toNat < a.toNat
            · simp [stringLt, hba] at hts
            · have habn : a.toNat = b.toNat :=
                Nat.le_antisymm (Nat.le_of_not_lt hba) (Nat.le_of_not_lt hab)
              have hch : a = b := Char.eq_of_val_eq (by
                have hv : a.val.toNat = b.val.toNat := habn
                exact UInt32.ext hv)
              simp only [stringLt, hab, hba, if_false] at hst hts
              rw [hch, ih bt hst hts]

/-! ### Determinism of the stable sort used by NewDependencyGraph -/

theorem insertionSort_nodeName_eq (h : Heap) (l1 l2 : List Nat)
    (hp : l1.Perm l2)
    (hn : (l1.map (fun i => (h.node i).ModuleName)).Nodup) :
    l1.insertionSort (fun a b => nodeNameLe h a b = true)
      = l2.insertionSort (fun a b => nodeNameLe h a b = true) := by
  have htrans : ∀ a b c : Nat, nodeNameLe h a b = true → nodeNameLe h b c = true →
      nodeNameLe h a c = true := by
    intro a b c hab hbc
    unfold nodeNameLe at hab hbc ⊢
    rw [Bool.not_eq_true'] at hab hbc ⊢
    by_cases hca : stringLt ((h.node c).ModuleName.data) ((h.node a).ModuleName.data) = true
    · rcases stringLt_linearity _ _ ((h.node b).ModuleName.data) hca with hh | hh
      · rw [hh] at hbc; exact Bool.noConfusion hbc
      · rw [hh] at hab; exact Bool.noConfusion hab
    · rw [Bool.not_eq_true] at hca; exact hca
  have htotal : ∀ a b : Nat, nodeNameLe h a b = true ∨ nodeNameLe h b a = true := by
    intro a b
    unfold nodeNameLe
    by_cases hh : stringLt ((h.node b).ModuleName.data) ((h.node a).ModuleName.data) = true
    · right
      rw [stringLt_asymm _ _ hh]
      rfl
    · left
      rw [Bool.not_eq_true] at hh
      rw [hh]
      rfl
  haveI instTot : IsTotal Nat (fun a b => nodeNameLe h a b = true) := ⟨htotal⟩
  haveI instTrans : IsTrans Nat (fun a b => nodeNameLe h a b = true) :=
    ⟨fun a b c => htrans a b c⟩
  have hs1 := List.sorted_insertionSort (fun a b => nodeNameLe h a b = true) l1
  have hs2 := List.sorted_insertionSort (fun a b => nodeNameLe h a b = true) l2
  have hperm1 := List.perm_insertionSort (fun a b => nodeNameLe h a b = true) l1
  have hperm2 := List.perm_insertionSort (fun a b => nodeNameLe h a b = true) l2
  have hnodup1 : ((l1.insertionSort (fun a b => nodeNameLe h a b = true)).map
      (fun i => (h.node i).ModuleName)).Nodup :=
    (hperm1.map (fun i => (h.node i).ModuleName)).symm.nodup hn
  have hnodup2 : ((l2.insertionSort (fun a b => nodeNameLe h a b = true)).map
      (fun i => (h.node i).ModuleName)).Nodup := by
    have hn2 : (l2.map (fun i => (h.node i).ModuleName)).Nodup :=
      (hp.map (fun i => (h.node i).ModuleName)).nodup hn
    exact (hperm2.map (fun i => (h.node i).ModuleName)).symm.nodup hn2
  have hstrict : ∀ l : List Nat,
      List.Sorted (fun a b => nodeNameLe h a b = true) l →
      (l.map (fun i => (h.node i).ModuleName)).Nodup →
      List.Sorted
        (fun a b => stringLt ((h.node a).ModuleName.data) ((h.node b).ModuleName.data) = true)
        l := by
    intro l hsort hnd
    have hne : l.Pairwise (fun a b => (h.node a).ModuleName ≠ (h.node b).ModuleName) :=
      List.pairwise_map.mp hnd
    refine (hsort.and hne).imp ?_
    intro a b hab
    rcases hab with ⟨hle, hne'⟩
    unfold nodeNameLe at hle
    rw [Bool.not_eq_true'] at hle
    by_cases hlt : stringLt ((h.node a).ModuleName.data) ((h.node b).ModuleName.data) = true
    · exact hlt
    · exfalso
      rw [Bool.not_eq_true] at hlt
      have hdata := stringLt_eq_of_not_lt _ _ hlt hle
      exact hne' (String.ext hdata)
  have hstrict1 := hstrict _ hs1 hnodup1
  have hstrict2 := hstrict _ hs2 hnodup2
  haveI instAnti : IsAntisymm Nat
      (fun a b => stringLt ((h.node a).ModuleName.data) ((h.node b).ModuleName.data) = true) := by
    constructor
    intro a b h1 h2
    have := stringLt_asymm _ _ h1
    rw [h2] at this
    exact Bool.noConfusion this
  exact List.eq_of_perm_of_sorted (hperm1.trans (hp.trans hperm2.symm)) hstrict1 hstrict2

/-! ### Claims C4, C6, C7 -/

/-- Claim C4: calling SubgraphFrom on a graph whose isSubgraph flag is true
does not silently succeed but signals the precondition violation (the Go
panic, modelled as none); BuildDependencyGraph always returns a graph with
isSubgraph false, and SubgraphFrom, when it returns a graph, returns one
with isSubgraph true. -/
theorem C4_subgraph_flag_discipline (d : DependencyGraph) (h : Heap) (c : Nat) :
    (d.isSubgraph = true → SubgraphFrom d h c = none) ∧
    (∀ modFiles : List ModsModule, (BuildDependencyGraph modFiles).1.isSubgraph = false) ∧
    (∀ g' h', SubgraphFrom d h c = some (g', h') → g'.isSubgraph = true) := by
  refine ⟨?_, ?_, ?_⟩
  · intro hsub
    simp [SubgraphFrom, hsub]
  · intro modFiles
    rfl
  · intro g' h' hsome
    by_cases hsub : d.isSubgraph = true
    · rw [SubgraphFrom, if_pos hsub] at hsome
      exact Option.noConfusion hsome
    · rw [SubgraphFrom, if_neg hsub] at hsome
      injection hsome with hpair
      have hg := congrArg Prod.fst hpair
      subst hg
      rfl

/-- Claim C6: rendering order is deterministic and independent of insertion
order — for two mappings holding the same bindings in different orders (and
module names pairwise distinct), the node and edge sequences emitted by
Render coincide, because the nodes are iterated in the name-sorted
modulesList, never in raw map order. -/
theorem C6_render_deterministic (h : Heap) (m1 m2 : ModMap) (isSub : Bool) (goRegistry : String)
    (hperm : m1.Perm m2)
    (hnames : ((mapValues m1).map (fun i => (h.node i).ModuleName)).Nodup) :
    Render (NewDependencyGraph h m1 isSub) h goRegistry
      = Render (NewDependencyGraph h m2 isSub) h goRegistry := by
  have hlv : (mapValues m1).Perm (mapValues m2) := hperm.map _
  have hls : (NewDependencyGraph h m1 isSub).modulesList
      = (NewDependencyGraph h m2 isSub).modulesList :=
    insertionSort_nodeName_eq h _ _ hlv hnames
  unfold Render
  rw [hls]

/-- Claim C7: every edge Render emits carries the stale color (darkorange)
exactly when its required version differs from the target module's latest
version and that latest version is non-empty; otherwise it carries the
neutral color (dimgrey). -/
theorem C7_edge_stale_color (d : DependencyGraph) (h : Heap) (goRegistry : String) :
    ∀ e ∈ (Render d h goRegistry).edges,
      ∃ src ∈ d.modulesList, ∃ vid ∈ (h.node src).Requires,
        e.label = (h.vertex vid).targetVersion ∧
        (e.color = "darkorange" ↔
          ((h.vertex vid).targetVersion ≠ (h.node ((h.vertex vid).targetModule)).Version ∧
            (h.node ((h.vertex vid).targetModule)).Version ≠ "")) ∧
        (¬ ((h.vertex vid).targetVersion ≠ (h.node ((h.vertex vid).targetModule)).Version ∧
            (h.node ((h.vertex vid).targetModule)).Version ≠ "") → e.color = "dimgrey") := by
  intro e he
  unfold Render at he
  rw [List.mem_flatMap] at he
  obtain ⟨src, hsrc, he⟩ := he
  unfold renderEdgesOf at he
  rw [List.mem_map] at he
  obtain ⟨vid, hvid, hedge⟩ := he
  subst hedge
  refine ⟨src, hsrc, vid, hvid, rfl, ?_, ?_⟩
  · show (if (h.vertex vid).targetVersion ≠ (h.node ((h.vertex vid).targetModule)).Version ∧
        (h.node ((h.vertex vid).targetModule)).Version ≠ "" then "darkorange" else "dimgrey")
        = "darkorange" ↔ _
    by_cases hstale : (h.vertex vid).targetVersion ≠ (h.node ((h.vertex vid).targetModule)).Version ∧
        (h.node ((h.vertex vid).targetModule)).Version ≠ ""
    · rw [if_pos hstale]
      exact ⟨fun _ => hstale, fun _ => rfl⟩
    · rw [if_neg hstale]
      constructor
      · intro hcol
        exact absurd hcol (by decide)
      · intro hcon
        exact (hstale hcon).elim
  · intro hnstale
    show (if (h.vertex vid).targetVersion ≠ (h.node ((h.vertex vid).targetModule)).Version ∧
        (h.node ((h.vertex vid).targetModule)).Version ≠ "" then "darkorange" else "dimgrey")
        = "dimgrey"
    rw [if_neg hnstale]

def heapC6 : Heap :=
  ((Heap.empty.allocNode { ModuleName := "b" }).2.allocNode { ModuleName := "a" }).2

/-- Witness for C6 at a concrete pair of mappings that are permutations of
each other. -/
theorem C6_witness :
    List.Perm ([("a", 1), ("b", 0)] : ModMap) [("b", 0), ("a", 1)] ∧
    ((mapValues [("a", 1), ("b", 0)]).map (fun i => (heapC6.node i).ModuleName)).Nodup ∧
    Render (NewDependencyGraph heapC6 [("a", 1), ("b", 0)] false) heapC6 ""
      = Render (NewDependencyGraph heapC6 [("b", 0), ("a", 1)] false) heapC6 "" :=
  ⟨by decide, by decide,
    C6_render_deterministic heapC6 [("a", 1), ("b", 0)] [("b", 0), ("a", 1)] false ""
      (by decide) (by decide)⟩

/-- Witness for C4: the panic branch fires on a subgraph-flagged graph, a
built graph is not subgraph-flagged, and a successful extraction is
subgraph-flagged. -/
theorem C4_witness :
    SubgraphFrom { modulesList := [], modulesMap := [], isSubgraph := true } Heap.empty 0 = none ∧
    (BuildDependencyGraph []).1.isSubgraph = false ∧
    ∃ g' h', SubgraphFrom { modulesList := [], modulesMap := [], isSubgraph := false }
        Heap.empty 0 = some (g', h') ∧ g'.isSubgraph = true :=
  ⟨(C4_subgraph_flag_discipline { modulesList := [], modulesMap := [], isSubgraph := true }
      Heap.empty 0).1 rfl,
   (C4_subgraph_flag_discipline { modulesList := [], modulesMap := [], isSubgraph := true }
      Heap.empty 0).2.1 [],
   ⟨_, _, rfl,
    (C4_subgraph_flag_discipline { modulesList := [], modulesMap := [], isSubgraph := false }
      Heap.empty 0).2.2 _ _ rfl⟩⟩

def heapC7 : Heap :=
  { node := fun j =>
      if j = 0 then { ModuleName := "A", Requires := [0] }
      else { ModuleName := "B", Version := "v1.2.0" },
    vertex := fun _ => { targetModule := 1, targetVersion := "v1.0.0" },
    nextNode := 2, nextVertex := 1 }

def graphC7 : DependencyGraph :=
  { modulesList := [0], modulesMap := [("A", 0), ("B", 1)], isSubgraph := false }

def edgeC7 : RenderedEdge :=
  { id := "A:B:v1.0.0", label := "v1.0.0", color := "darkorange", fontColor := "darkorange" }

/-- Witness for C7 at a concrete rendered edge whose required version
v1.0.0 lags the target's latest v1.2.0. -/
theorem C7_witness :
    edgeC7 ∈ (Render graphC7 heapC7 "").edges ∧
    (∃ src ∈ graphC7.modulesList, ∃ vid ∈ (heapC7.node src).Requires,
      edgeC7.label = (heapC7.vertex vid).targetVersion ∧
      (edgeC7.color = "darkorange" ↔
        ((heapC7.vertex vid).targetVersion
            ≠ (heapC7.node ((heapC7.vertex vid).targetModule)).Version ∧
          (heapC7.node ((heapC7.vertex vid).targetModule)).Version ≠ "")) ∧
      (¬ ((heapC7.vertex vid).targetVersion
            ≠ (heapC7.node ((heapC7.vertex vid).targetModule)).Version ∧
          (heapC7.node ((heapC7.vertex vid).targetModule)).Version ≠ "") →
        edgeC7.color = "dimgrey")) :=
  ⟨by decide, C7_edge_stale_color graphC7 heapC7 "" edgeC7 (by decide)⟩

/-! ### Concrete scenarios: a straight-line graph and a two-cycle -/

/-- A module A that requires B at v1.0.0. -/
def modFileA : ModsModule :=
  { ModFile :=
      { module := some "A", go := some "1.21",
        require := [{ path := "B", version := "v1.0.0", indirect := false }] },
    Version := "v0.1.0" }

/-- A module B with no requirements, latest release v1.2.0. -/
def modFileB : ModsModule :=
  { ModFile := { module := some "B", go := none, require := [] }, Version := "v1.2.0" }

/-- A module A requiring B, for the cyclic scenario. -/
def modFileA2 : ModsModule :=
  { ModFile :=
      { module := some "A", go := none,
        require := [{ path := "B", version := "v1.0.0", indirect := false }] },
    Version := "v0.1.0" }

/-- A module B requiring A back, closing the cycle. -/
def modFileB2 : ModsModule :=
  { ModFile :=
      { module := some "B", go := none,
        require := [{ path := "A", version := "v0.0.9", indirect := false }] },
    Version := "v1.2.0" }

/-- Claim C1 is violated by the code: this theorem evaluates SubgraphFrom at
the failing input.  Building the graph of modFileA and modFileB allocates
nodes A = 0 and B = 1 and the forward vertex 0 of the edge A requires B; the
vertex initially targets node 1, a member of the full graph's mapping.
After SubgraphFrom on center A the very same vertex — still reachable from
the original graph's node A — targets the fresh clone 3, which is not a
value of the original mapping: the original graph has been mutated and its
edge now dangles outside its own node set.  (The copied center shares the
Requires slice with the original node, so the repointing performed for the
derived mapping's benefit writes through into the full graph.) -/
theorem C1_subgraphFrom_mutates_original :
    (BuildDependencyGraph [modFileA, modFileB]).1.modulesMap = [("A", 0), ("B", 1)] ∧
    ((BuildDependencyGraph [modFileA, modFileB]).2.node 0).Requires = [0] ∧
    (BuildDependencyGraph [modFileA, modFileB]).2.vertex 0
      = { targetModule := 1, targetVersion := "v1.0.0" } ∧
    inMap (BuildDependencyGraph [modFileA, modFileB]).1.modulesMap 1 ∧
    (SubgraphFrom (BuildDependencyGraph [modFileA, modFileB]).1
        (BuildDependencyGraph [modFileA, modFileB]).2 0).map (fun p => p.2.vertex 0)
      = some { targetModule := 3, targetVersion := "v1.0.0" } ∧
    ¬ inMap (BuildDependencyGraph [modFileA, modFileB]).1.modulesMap 3 := by
  decide

/-- Counterexample to claim C2 as stated: in the subgraph derived from
center A of the straight-line graph, the copy of B (node 3, bound to key B
in the derived mapping) keeps the original RequiredBy vertex 1, whose
target is the original node A = 0 — not a member of the derived mapping.
And in the subgraph derived from center A of the two-cycle, even a Requires
vertex dangles: the center copy 2 keeps requires-vertex 0, which was
repointed to the dependency clone 3, but the key B was then overwritten by
the dependent copy 4, leaving 3 outside the mapping. -/
theorem C2_counterexample :
    ((SubgraphFrom (BuildDependencyGraph [modFileA, modFileB]).1
        (BuildDependencyGraph [modFileA, modFileB]).2 0).map
      (fun p => (p.1.modulesMap, (p.2.node 3).RequiredBy, (p.2.vertex 1).targetModule))
      = some ([("A", 2), ("B", 3)], [1], 0)) ∧
    ¬ inMap [("A", 2), ("B", 3)] 0 ∧
    ((SubgraphFrom (BuildDependencyGraph [modFileA2, modFileB2]).1
        (BuildDependencyGraph [modFileA2, modFileB2]).2 0).map
      (fun p => (p.1.modulesMap, (p.2.node 2).Requires, (p.2.vertex 0).targetModule))
      = some ([("A", 2), ("B", 4)], [0], 3)) ∧
    ¬ inMap [("A", 2), ("B", 4)] 3 := by
  decide

/-- Counterexample to claim C3 as stated: in the two-cycle, B is a direct
dependency of the center A (the full graph's vertex 0 goes from node 0 = A
to node 1 = B), yet B's copy in the derived graph — node 4, the value bound
to key B — carries an outgoing edge (vertex 4, pointing back at the center
copy 2), because B is also a direct dependent and the dependent loop
overwrites the pruned dependency copy. -/
theorem C3_counterexample :
    ((BuildDependencyGraph [modFileA2, modFileB2]).2.node 0).ModuleName = "A" ∧
    ((BuildDependencyGraph [modFileA2, modFileB2]).2.node 0).Requires = [0] ∧
    ((BuildDependencyGraph [modFileA2, modFileB2]).2.vertex 0).targetModule = 1 ∧
    ((BuildDependencyGraph [modFileA2, modFileB2]).2.node 1).ModuleName = "B" ∧
    ((SubgraphFrom (BuildDependencyGraph [modFileA2, modFileB2]).1
        (BuildDependencyGraph [modFileA2, modFileB2]).2 0).map
      (fun p => (mapLookup p.1.modulesMap "B", (p.2.node 4).Requires,
        (p.2.vertex 4).targetModule, mapLookup p.1.modulesMap "A"))
      = some (some 4, [4], 2, some 2)) := by
  decide

/-! ### What addDependency does to each address -/

theorem addDependency_nextNode (h : Heap) (a b : Nat) (v : String) :
    (addDependency h a b v).nextNode = h.nextNode := rfl

theorem addDependency_nextVertex (h : Heap) (a b : Nat) (v : String) :
    (addDependency h a b v).nextVertex = h.nextVertex + 2 := rfl

theorem addDependency_vertex (h : Heap) (a b : Nat) (v : String) (w : Nat) :
    (addDependency h a b v).vertex w =
      if w = h.nextVertex + 1 then { targetModule := a, targetVersion := v }
      else if w = h.nextVertex then { targetModule := b, targetVersion := v }
      else h.vertex w := rfl

theorem addDependency_Requires (h : Heap) (a b : Nat) (v : String) (j : Nat) :
    ((addDependency h a b v).node j).Requires =
      (h.node j).Requires ++ (if j = a then [h.nextVertex] else []) := by
  unfold addDependency
  simp only [Heap.node_setNode, Heap.node_allocVertex, Heap.fst_allocVertex,
    Heap.nextVertex_allocVertex, Heap.nextNode_allocVertex, Heap.nextVertex_setNode]
  by_cases hjb : j = b <;> by_cases hja : j = a <;> by_cases hba : b = a <;>
    simp_all

theorem addDependency_RequiredBy (h : Heap) (a b : Nat) (v : String) (j : Nat) :
    ((addDependency h a b v).node j).RequiredBy =
      (h.node j).RequiredBy ++ (if j = b then [h.nextVertex + 1] else []) := by
  unfold addDependency
  simp only [Heap.node_setNode, Heap.node_allocVertex, Heap.fst_allocVertex,
    Heap.nextVertex_allocVertex, Heap.nextNode_allocVertex, Heap.nextVertex_setNode]
  by_cases hjb : j = b <;> by_cases hja : j = a <;> by_cases hba : b = a <;>
    simp_all

theorem addDependency_ModuleName (h : Heap) (a b : Nat) (v : String) (j : Nat) :
    ((addDependency h a b v).node j).ModuleName = (h.node j).ModuleName := by
  unfold addDependency
  simp only [Heap.node_setNode, Heap.node_allocVertex, Heap.fst_allocVertex,
    Heap.nextVertex_allocVertex, Heap.nextNode_allocVertex, Heap.nextVertex_setNode]
  by_cases hjb : j = b <;> by_cases hja : j = a <;> by_cases hba : b = a <;>
    simp_all

theorem addDependency_vertex_old (h : Heap) (a b : Nat) (v : String) (w : Nat)
    (hw : w < h.nextVertex) : (addDependency h a b v).vertex w = h.vertex w := by
  rw [addDependency_vertex]
  have h1 : w ≠ h.nextVertex + 1 := by omega
  have h2 : w ≠ h.nextVertex := by omega
  simp [h1, h2]

theorem addDependency_vertex_fwd (h : Heap) (a b : Nat) (v : String) :
    (addDependency h a b v).vertex h.nextVertex
      = { targetModule := b, targetVersion := v } := by
  rw [addDependency_vertex]
  simp

theorem addDependency_vertex_bwd (h : Heap) (a b : Nat) (v : String) :
    (addDependency h a b v).vertex (h.nextVertex + 1)
      = { targetModule := a, targetVersion := v } := by
  rw [addDependency_vertex]
  simp

theorem addDependency_mem_Requires (h : Heap) (a b : Nat) (v : String) (j vid : Nat) :
    vid ∈ ((addDependency h a b v).node j).Requires ↔
      vid ∈ (h.node j).Requires ∨ (j = a ∧ vid = h.nextVertex) := by
  rw [addDependency_Requires, List.mem_append]
  by_cases haa : j = a <;> simp [haa]

theorem addDependency_mem_RequiredBy (h : Heap) (a b : Nat) (v : String) (j vid : Nat) :
    vid ∈ ((addDependency h a b v).node j).RequiredBy ↔
      vid ∈ (h.node j).RequiredBy ∨ (j = b ∧ vid = h.nextVertex + 1) := by
  rw [addDependency_RequiredBy, List.mem_append]
  by_cases hbb : j = b <;> simp [hbb]

/-! ### The invariants BuildDependencyGraph maintains -/

/-- Well-formedness of a heap and mapping as maintained by the graph
construction: node names agree with their keys, keys are unique, all ids are
allocated, every edge of a mapped node targets a mapped node, a vertex id
appears in Requires lists or in RequiredBy lists but never in both, Requires
lists repeat no vertex, and the forward and backward halves of every edge
pair mirror each other. -/
structure HeapWF (h : Heap) (m : ModMap) : Prop where
  names : ∀ p ∈ m, (h.node p.2).ModuleName = p.1
  keysNodup : (mapKeys m).Nodup
  valuesBound : ∀ p ∈ m, p.2 < h.nextNode
  reqVidBound : ∀ a : Nat, ∀ vid ∈ (h.node a).Requires, vid < h.nextVertex
  rbVidBound : ∀ a : Nat, ∀ vid ∈ (h.node a).RequiredBy, vid < h.nextVertex
  reqTgtBound : ∀ a : Nat, ∀ vid ∈ (h.node a).Requires,
    (h.vertex vid).targetModule < h.nextNode
  rbTgtBound : ∀ a : Nat, ∀ vid ∈ (h.node a).RequiredBy,
    (h.vertex vid).targetModule < h.nextNode
  reqTgtInMap : ∀ p ∈ m, ∀ vid ∈ (h.node p.2).Requires,
    inMap m ((h.vertex vid).targetModule)
  rbTgtInMap : ∀ p ∈ m, ∀ vid ∈ (h.node p.2).RequiredBy,
    inMap m ((h.vertex vid).targetModule)
  rolesDisjoint : ∀ a b : Nat, ∀ vid ∈ (h.node a).Requires, vid ∉ (h.node b).RequiredBy
  reqNodup : ∀ a : Nat, ((h.node a).Requires).Nodup
  mirror : ∀ a b : Nat, ∀ v : String,
    (∃ vid ∈ (h.node a).Requires,
        h.vertex vid = { targetModule := b, targetVersion := v }) ↔
    (∃ vid ∈ (h.node b).RequiredBy,
        h.vertex vid = { targetModule := a, targetVersion := v })

theorem HeapWF.inMap_bound {h : Heap} {m : ModMap} (hwf : HeapWF h m) {i : Nat}
    (hi : inMap m i) : i < h.nextNode := by
  obtain ⟨k, hk⟩ := inMap_mapValues m i hi
  exact hwf.valuesBound (k, i) hk

theorem addDependency_HeapWF (h : Heap) (m : ModMap) (a b : Nat) (v : String)
    (hwf : HeapWF h m) (ha : inMap m a) (hb : inMap m b) :
    HeapWF (addDependency h a b v) m := by
  have haN : a < h.nextNode := hwf.inMap_bound ha
  have hbN : b < h.nextNode := hwf.inMap_bound hb
  constructor
  · intro p hp
    rw [addDependency_ModuleName]
    exact hwf.names p hp
  · exact hwf.keysNodup
  · intro p hp
    rw [addDependency_nextNode]
    exact hwf.valuesBound p hp
  · intro j vid hvid
    rw [addDependency_nextVertex]
    rcases (addDependency_mem_Requires h a b v j vid).mp hvid with hold | ⟨_, hnew⟩
    · have := hwf.reqVidBound j vid hold
      omega
    · omega
  · intro j vid hvid
    rw [addDependency_nextVertex]
    rcases (addDependency_mem_RequiredBy h a b v j vid).mp hvid with hold | ⟨_, hnew⟩
    · have := hwf.rbVidBound j vid hold
      omega
    · omega
  · intro j vid hvid
    rw [addDependency_nextNode]
    rcases (addDependency_mem_Requires h a b v j vid).mp hvid with hold | ⟨_, hnew⟩
    · rw [addDependency_vertex_old h a b v vid (hwf.reqVidBound j vid hold)]
      exact hwf.reqTgtBound j vid hold
    · rw [hnew, addDependency_vertex_fwd]
      exact hbN
  · intro j vid hvid
    rw [addDependency_nextNode]
    rcases (addDependency_mem_RequiredBy h a b v j vid).mp hvid with hold | ⟨_, hnew⟩
    · rw [addDependency_vertex_old h a b v vid (hwf.rbVidBound j vid hold)]
      exact hwf.rbTgtBound j vid hold
    · rw [hnew, addDependency_vertex_bwd]
      exact haN
  · intro p hp vid hvid
    rcases (addDependency_mem_Requires h a b v p.2 vid).mp hvid with hold | ⟨_, hnew⟩
    · rw [addDependency_vertex_old h a b v vid (hwf.reqVidBound p.2 vid hold)]
      exact hwf.reqTgtInMap p hp vid hold
    · rw [hnew, addDependency_vertex_fwd]
      exact hb
  · intro p hp vid hvid
    rcases (addDependency_mem_RequiredBy h a b v p.2 vid).mp hvid with hold | ⟨_, hnew⟩
    · rw [addDependency_vertex_old h a b v vid (hwf.rbVidBound p.2 vid hold)]
      exact hwf.rbTgtInMap p hp vid hold
    · rw [hnew, addDependency_vertex_bwd]
      exact ha
  · intro a' b' vid hvid hmem
    rcases (addDependency_mem_Requires h a b v a' vid).mp hvid with holdr | ⟨_, hnewr⟩
    · rcases (addDependency_mem_RequiredBy h a b v b' vid).mp hmem with holdb | ⟨_, hnewb⟩
      · exact hwf.rolesDisjoint a' b' vid holdr holdb
      · have := hwf.reqVidBound a' vid holdr
        omega
    · rcases (addDependency_mem_RequiredBy h a b v b' vid).mp hmem with holdb | ⟨_, hnewb⟩
      · have := hwf.rbVidBound b' vid holdb
        omega
      · omega
  · intro j
    rw [addDependency_Requires]
    by_cases haa : j = a
    · rw [if_pos haa, List.nodup_append]
      refine ⟨hwf.reqNodup j, List.nodup_singleton _, ?_⟩
      intro vid hvid hmem
      rw [List.mem_singleton] at hmem
      have := hwf.reqVidBound j vid hvid
      omega
    · rw [if_neg haa, List.append_nil]
      exact hwf.reqNodup j
  · intro a' b' v'
    have hlhs : (∃ vid ∈ ((addDependency h a b v).node a').Requires,
        (addDependency h a b v).vertex vid
          = { targetModule := b', targetVersion := v' }) ↔
        ((∃ vid ∈ (h.node a').Requires,
            h.vertex vid = { targetModule := b', targetVersion := v' }) ∨
          (a' = a ∧ b' = b ∧ v' = v)) := by
      constructor
      · rintro ⟨vid, hvid, hval⟩
        rcases (addDependency_mem_Requires h a b v a' vid).mp hvid with hold | ⟨haa, hnew⟩
        · rw [addDependency_vertex_old h a b v vid (hwf.reqVidBound a' vid hold)] at hval
          exact Or.inl ⟨vid, hold, hval⟩
        · rw [hnew, addDependency_vertex_fwd] at hval
          have hb' : b = b' := congrArg DependencyVertex.targetModule hval
          have hv' : v = v' := congrArg DependencyVertex.targetVersion hval
          exact Or.inr ⟨haa, hb'.symm, hv'.symm⟩
      · rintro (⟨vid, hold, hval⟩ | ⟨haa, hbb, hvv⟩)
        · refine ⟨vid, (addDependency_mem_Requires h a b v a' vid).mpr (Or.inl hold), ?_⟩
          rw [addDependency_vertex_old h a b v vid (hwf.reqVidBound a' vid hold)]
          exact hval
        · refine ⟨h.nextVertex,
            (addDependency_mem_Requires h a b v a' h.nextVertex).mpr (Or.inr ⟨haa, rfl⟩), ?_⟩
          rw [addDependency_vertex_fwd, hbb, hvv]
    have hrhs : (∃ vid ∈ ((addDependency h a b v).node b').RequiredBy,
        (addDependency h a b v).vertex vid
          = { targetModule := a', targetVersion := v' }) ↔
        ((∃ vid ∈ (h.node b').RequiredBy,
            h.vertex vid = { targetModule := a', targetVersion := v' }) ∨
          (b' = b ∧ a' = a ∧ v' = v)) := by
      constructor
      · rintro ⟨vid, hvid, hval⟩
        rcases (addDependency_mem_RequiredBy h a b v b' vid).mp hvid with hold | ⟨hbb, hnew⟩
        · rw [addDependency_vertex_old h a b v vid (hwf.rbVidBound b' vid hold)] at hval
          exact Or.inl ⟨vid, hold, hval⟩
        · rw [hnew, addDependency_vertex_bwd] at hval
          have ha' : a = a' := congrArg DependencyVertex.targetModule hval
          have hv' : v = v' := congrArg DependencyVertex.targetVersion hval
          exact Or.inr ⟨hbb, ha'.symm, hv'.symm⟩
      · rintro (⟨vid, hold, hval⟩ | ⟨hbb, haa, hvv⟩)
        · refine ⟨vid, (addDependency_mem_RequiredBy h a b v b' vid).mpr (Or.inl hold), ?_⟩
          rw [addDependency_vertex_old h a b v vid (hwf.rbVidBound b' vid hold)]
          exact hval
        · refine ⟨h.nextVertex + 1,
            (addDependency_mem_RequiredBy h a b v b' (h.nextVertex + 1)).mpr
              (Or.inr ⟨hbb, rfl⟩), ?_⟩
          rw [addDependency_vertex_bwd, haa, hvv]
    rw [hlhs, hrhs, hwf.mirror a' b' v']
    constructor
    · rintro (hh | ⟨h1, h2, h3⟩)
      · exact Or.inl hh
      · exact Or.inr ⟨h2, h1, h3⟩
    · rintro (hh | ⟨h1, h2, h3⟩)
      · exact Or.inl hh
      · exact Or.inr ⟨h2, h1, h3⟩

/-! ### The first pass -/

theorem mem_mapInsert (m : ModMap) (k : String) (v : Nat) (p : String × Nat)
    (hp : p ∈ mapInsert m k v) : p = (k, v) ∨ (p ∈ m ∧ p.1 ≠ k) := by
  unfold mapInsert at hp
  by_cases hs : (mapLookup m k).isSome
  · rw [if_pos hs] at hp
    rcases List.mem_map.mp hp with ⟨q, hq, hqe⟩
    by_cases hqk : q.1 = k
    · left
      rw [← hqe, if_pos hqk]
    · right
      rw [← hqe, if_neg hqk]
      exact ⟨hq, hqk⟩
  · rw [if_neg hs] at hp
    rcases List.mem_append.mp hp with hq | hq
    · right
      refine ⟨hq, ?_⟩
      intro hpk
      apply hs
      rw [mapLookup_isSome_iff]
      rw [← hpk]
      exact List.mem_map.mpr ⟨p, hq, rfl⟩
    · left
      simpa using hq

/-- State holding after any prefix of the first pass: no node carries any
edge yet, names agree with keys, keys are unique, mapped ids are
allocated. -/
structure Pass1Inv (h : Heap) (m : ModMap) : Prop where
  edgeFreeReq : ∀ a : Nat, (h.node a).Requires = []
  edgeFreeRb : ∀ a : Nat, (h.node a).RequiredBy = []
  names : ∀ p ∈ m, (h.node p.2).ModuleName = p.1
  keysNodup : (mapKeys m).Nodup
  valuesBound : ∀ p ∈ m, p.2 < h.nextNode

theorem buildPass1Step_inv (acc : ModMap × Heap) (mf : ModsModule)
    (hinv : Pass1Inv acc.2 acc.1) :
    Pass1Inv (buildPass1Step acc mf).2 (buildPass1Step acc mf).1 := by
  unfold buildPass1Step
  cases hmod : mf.ModFile.module with
  | none => exact hinv
  | some moduleName =>
      simp only [Heap.fst_allocNode]
      constructor
      · intro a
        rw [Heap.node_allocNode]
        by_cases ha : a = acc.2.nextNode
        · rw [if_pos ha]
        · rw [if_neg ha]
          exact hinv.edgeFreeReq a
      · intro a
        rw [Heap.node_allocNode]
        by_cases ha : a = acc.2.nextNode
        · rw [if_pos ha]
        · rw [if_neg ha]
          exact hinv.edgeFreeRb a
      · intro p hp
        rw [Heap.node_allocNode]
        rcases mem_mapInsert _ _ _ p hp with hnew | ⟨hold, _⟩
        · rw [hnew]
          simp
        · have hlt : p.2 < acc.2.nextNode := hinv.valuesBound p hold
          have hne : p.2 ≠ acc.2.nextNode := by omega
          rw [if_neg hne]
          exact hinv.names p hold
      · exact mapKeys_nodup_mapInsert _ _ _ hinv.keysNodup
      · intro p hp
        rw [Heap.nextNode_allocNode]
        rcases mem_mapInsert _ _ _ p hp with hnew | ⟨hold, _⟩
        · rw [hnew]
          simp
        · have := hinv.valuesBound p hold
          omega

theorem buildPass1_foldl_inv (mfs : List ModsModule) :
    ∀ acc : ModMap × Heap, Pass1Inv acc.2 acc.1 →
      Pass1Inv (mfs.foldl buildPass1Step acc).2 (mfs.foldl buildPass1Step acc).1 := by
  induction mfs with
  | nil => intro acc h; exact h
  | cons mf t ih =>
      intro acc h
      rw [List.foldl_cons]
      exact ih _ (buildPass1Step_inv acc mf h)

theorem buildPass1_inv (modFiles : List ModsModule) :
    Pass1Inv (buildPass1 modFiles).2 (buildPass1 modFiles).1 := by
  refine buildPass1_foldl_inv modFiles ([], Heap.empty) ?_
  constructor
  · intro a; rfl
  · intro a; rfl
  · intro p hp; simp at hp
  · simp [mapKeys]
  · intro p hp; simp at hp

theorem buildPass1_foldl_keys (mfs : List ModsModule) :
    ∀ (acc : ModMap × Heap) (n : String),
      (mapLookup (mfs.foldl buildPass1Step acc).1 n).isSome ↔
        ((mapLookup acc.1 n).isSome ∨ ∃ mf ∈ mfs, mf.ModFile.module = some n) := by
  induction mfs with
  | nil => intro acc n; simp
  | cons mf t ih =>
      intro acc n
      rw [List.foldl_cons, ih]
      unfold buildPass1Step
      cases hmod : mf.ModFile.module with
      | none =>
          simp only [List.mem_cons]
          constructor
          · rintro (hh | ⟨mf', hmf', hdecl⟩)
            · exact Or.inl hh
            · exact Or.inr ⟨mf', Or.inr hmf', hdecl⟩
          · rintro (hh | ⟨mf', hmf' | hmf', hdecl⟩)
            · exact Or.inl hh
            · rw [hmf'] at hdecl
              rw [hmod] at hdecl
              exact Option.noConfusion hdecl
            · exact Or.inr ⟨mf', hmf', hdecl⟩
      | some moduleName =>
          simp only [Heap.fst_allocNode, List.mem_cons]
          have hins : (mapLookup (mapInsert acc.1 moduleName acc.2.nextNode) n).isSome
              ↔ (n = moduleName ∨ (mapLookup acc.1 n).isSome) := by
            rw [mapLookup_mapInsert]
            by_cases hn : n = moduleName <;> simp [hn]
          rw [hins]
          constructor
          · rintro ((hn | hh) | ⟨mf', hmf', hdecl⟩)
            · exact Or.inr ⟨mf, Or.inl rfl, by rw [hmod, hn]⟩
            · exact Or.inl hh
            · exact Or.inr ⟨mf', Or.inr hmf', hdecl⟩
          · rintro (hh | ⟨mf', hmf' | hmf', hdecl⟩)
            · exact Or.inl (Or.inr hh)
            · rw [hmf', hmod] at hdecl
              exact Or.inl (Or.inl (Option.some.inj hdecl).symm)
            · exact Or.inr ⟨mf', hmf', hdecl⟩

theorem buildPass1_keys (modFiles : List ModsModule) (n : String) :
    (mapLookup (buildPass1 modFiles).1 n).isSome ↔
      ∃ mf ∈ modFiles, mf.ModFile.module = some n := by
  rw [buildPass1, buildPass1_foldl_keys]
  simp [mapLookup]

/-! ### The second pass -/

theorem Pass1Inv.toHeapWF {h : Heap} {m : ModMap} (hinv : Pass1Inv h m) : HeapWF h m := by
  constructor
  · exact hinv.names
  · exact hinv.keysNodup
  · exact hinv.valuesBound
  · intro a vid hvid
    rw [hinv.edgeFreeReq a] at hvid
    simp at hvid
  · intro a vid hvid
    rw [hinv.edgeFreeRb a] at hvid
    simp at hvid
  · intro a vid hvid
    rw [hinv.edgeFreeReq a] at hvid
    simp at hvid
  · intro a vid hvid
    rw [hinv.edgeFreeRb a] at hvid
    simp at hvid
  · intro p _ vid hvid
    rw [hinv.edgeFreeReq p.2] at hvid
    simp at hvid
  · intro p _ vid hvid
    rw [hinv.edgeFreeRb p.2] at hvid
    simp at hvid
  · intro a b vid hvid
    rw [hinv.edgeFreeReq a] at hvid
    simp at hvid
  · intro a
    rw [hinv.edgeFreeReq a]
    exact List.nodup_nil
  · intro a b v
    rw [hinv.edgeFreeReq a, hinv.edgeFreeRb b]
    simp

theorem addEdgeStep_HeapWF (mmap : ModMap) (nodeId : Nat) (h : Heap) (req : Require)
    (hwf : HeapWF h mmap) (hnode : inMap mmap nodeId) :
    HeapWF (addEdgeStep mmap nodeId h req) mmap := by
  unfold addEdgeStep
  by_cases hind : req.indirect
  · rw [if_pos hind]
    exact hwf
  · rw [if_neg hind]
    cases hlook : mapLookup mmap req.path with
    | none => exact hwf
    | some targetId =>
        exact addDependency_HeapWF h mmap nodeId targetId req.version hwf hnode
          (mapLookup_inMap mmap req.path targetId hlook)

theorem addModuleEdges_HeapWF (mmap : ModMap) (nodeId : Nat) (reqs : List Require) :
    ∀ h : Heap, HeapWF h mmap → inMap mmap nodeId →
      HeapWF (addModuleEdges mmap nodeId reqs h) mmap := by
  induction reqs with
  | nil => intro h hwf _; exact hwf
  | cons req t ih =>
      intro h hwf hnode
      rw [addModuleEdges, List.foldl_cons]
      exact ih _ (addEdgeStep_HeapWF mmap nodeId h req hwf hnode) hnode

theorem buildPass2Step_HeapWF (mmap : ModMap) (h : Heap) (mf : ModsModule)
    (hwf : HeapWF h mmap) : HeapWF (buildPass2Step mmap h mf) mmap := by
  cases hmod : mf.ModFile.module with
  | none => simpa only [buildPass2Step, hmod] using hwf
  | some moduleName =>
      cases hlook : mapLookup mmap moduleName with
      | none => simpa only [buildPass2Step, hmod, hlook] using hwf
      | some nodeId =>
          have hres := addModuleEdges_HeapWF mmap nodeId mf.ModFile.require h hwf
            (mapLookup_inMap mmap moduleName nodeId hlook)
          simpa only [buildPass2Step, hmod, hlook] using hres

theorem buildPass2_HeapWF (mfs : List ModsModule) (mmap : ModMap) :
    ∀ h : Heap, HeapWF h mmap → HeapWF (buildPass2 mfs mmap h) mmap := by
  induction mfs with
  | nil => intro h hwf; exact hwf
  | cons mf t ih =>
      intro h hwf
      rw [buildPass2, List.foldl_cons]
      exact ih _ (buildPass2Step_HeapWF mmap h mf hwf)

theorem BuildDependencyGraph_modulesMap (modFiles : List ModsModule) :
    (BuildDependencyGraph modFiles).1.modulesMap = (buildPass1 modFiles).1 := rfl

theorem BuildDependencyGraph_heap (modFiles : List ModsModule) :
    (BuildDependencyGraph modFiles).2
      = buildPass2 modFiles (buildPass1 modFiles).1 (buildPass1 modFiles).2 := rfl

theorem BuildDependencyGraph_HeapWF (modFiles : List ModsModule) :
    HeapWF (BuildDependencyGraph modFiles).2 (BuildDependencyGraph modFiles).1.modulesMap := by
  rw [BuildDependencyGraph_modulesMap, BuildDependencyGraph_heap]
  exact buildPass2_HeapWF modFiles (buildPass1 modFiles).1 (buildPass1 modFiles).2
    (buildPass1_inv modFiles).toHeapWF

/-! ### Where edges come from -/

/-- Every Requires vertex in the heap originates from a record that carries
a module directive resolving to the edge's source node, through one of its
non-indirect requirements whose path resolves in the mapping to the edge's
target, with the literal required version. -/
def EdgeOrigin (h : Heap) (mmap : ModMap) (modFiles : List ModsModule) : Prop :=
  ∀ a : Nat, ∀ vid ∈ (h.node a).Requires,
    ∃ mf ∈ modFiles, ∃ name, mf.ModFile.module = some name ∧
      mapLookup mmap name = some a ∧
      ∃ r ∈ mf.ModFile.require, r.indirect = false ∧
        mapLookup mmap r.path = some ((h.vertex vid).targetModule) ∧
        (h.vertex vid).targetVersion = r.version

theorem addEdgeStep_origin (mmap : ModMap) (nodeId : Nat) (h : Heap) (req : Require)
    (S : List ModsModule) (mf : ModsModule) (name : String)
    (hwf : HeapWF h mmap) (horig : EdgeOrigin h mmap S)
    (hmf : mf ∈ S) (hname : mf.ModFile.module = some name)
    (hnodeId : mapLookup mmap name = some nodeId)
    (hreq : req ∈ mf.ModFile.require) :
    EdgeOrigin (addEdgeStep mmap nodeId h req) mmap S := by
  unfold addEdgeStep
  by_cases hind : req.indirect
  · rw [if_pos hind]
    exact horig
  · rw [if_neg hind]
    cases hlook : mapLookup mmap req.path with
    | none => exact horig
    | some targetId =>
        intro a vid hvid
        rcases (addDependency_mem_Requires h nodeId targetId req.version a vid).mp hvid
          with hold | ⟨haa, hnew⟩
        · rw [addDependency_vertex_old h nodeId targetId req.version vid
            (hwf.reqVidBound a vid hold)]
          exact horig a vid hold
        · refine ⟨mf, hmf, name, hname, ?_, req, hreq, ?_, ?_, ?_⟩
          · rw [haa]
            exact hnodeId
          · rw [Bool.not_eq_true] at hind
            exact hind
          · rw [hnew, addDependency_vertex_fwd]
            exact hlook
          · rw [hnew, addDependency_vertex_fwd]

theorem addModuleEdges_origin (mmap : ModMap) (nodeId : Nat) (S : List ModsModule)
    (mf : ModsModule) (name : String) (hmf : mf ∈ S)
    (hname : mf.ModFile.module = some name)
    (hnodeId : mapLookup mmap name = some nodeId) :
    ∀ (reqs : List Require) (h : Heap), (∀ r ∈ reqs, r ∈ mf.ModFile.require) →
      HeapWF h mmap → EdgeOrigin h mmap S →
      EdgeOrigin (addModuleEdges mmap nodeId reqs h) mmap S := by
  intro reqs
  induction reqs with
  | nil => intro h _ _ horig; exact horig
  | cons req t ih =>
      intro h hsub hwf horig
      rw [addModuleEdges, List.foldl_cons]
      refine ih _ (fun r hr => hsub r (List.mem_cons_of_mem req hr)) ?_ ?_
      · exact addEdgeStep_HeapWF mmap nodeId h req hwf
          (mapLookup_inMap mmap name nodeId hnodeId)
      · exact addEdgeStep_origin mmap nodeId h req S mf name hwf horig hmf hname hnodeId
          (hsub req (List.mem_cons_self req t))

theorem buildPass2Step_origin (mmap : ModMap) (h : Heap) (mf : ModsModule)
    (S : List ModsModule) (hmf : mf ∈ S) (hwf : HeapWF h mmap)
    (horig : EdgeOrigin h mmap S) :
    EdgeOrigin (buildPass2Step mmap h mf) mmap S := by
  cases hmod : mf.ModFile.module with
  | none => simpa only [buildPass2Step, hmod] using horig
  | some moduleName =>
      cases hlook : mapLookup mmap moduleName with
      | none => simpa only [buildPass2Step, hmod, hlook] using horig
      | some nodeId =>
          have hres := addModuleEdges_origin mmap nodeId S mf moduleName hmf hmod hlook
            mf.ModFile.require h (fun r hr => hr) hwf horig
          simpa only [buildPass2Step, hmod, hlook] using hres

theorem buildPass2_origin (mmap : ModMap) (S : List ModsModule) :
    ∀ (l : List ModsModule) (h : Heap), (∀ mf ∈ l, mf ∈ S) →
      HeapWF h mmap → EdgeOrigin h mmap S →
      EdgeOrigin (buildPass2 l mmap h) mmap S := by
  intro l
  induction l with
  | nil => intro h _ _ horig; exact horig
  | cons mf t ih =>
      intro h hsub hwf horig
      rw [buildPass2, List.foldl_cons]
      refine ih _ (fun mf' hmf' => hsub mf' (List.mem_cons_of_mem mf hmf')) ?_ ?_
      · exact buildPass2Step_HeapWF mmap h mf hwf
      · exact buildPass2Step_origin mmap h mf S (hsub mf (List.mem_cons_self mf t)) hwf horig

theorem BuildDependencyGraph_origin (modFiles : List ModsModule) :
    EdgeOrigin (BuildDependencyGraph modFiles).2
      (BuildDependencyGraph modFiles).1.modulesMap modFiles := by
  rw [BuildDependencyGraph_modulesMap, BuildDependencyGraph_heap]
  refine buildPass2_origin (buildPass1 modFiles).1 modFiles modFiles
    (buildPass1 modFiles).2 (fun mf hmf => hmf) (buildPass1_inv modFiles).toHeapWF ?_
  intro a vid hvid
  rw [(buildPass1_inv modFiles).edgeFreeReq a] at hvid
  simp at hvid

/-! ### Claims C5, C8, C9 -/

/-- Claim C5: in every graph produced by BuildDependencyGraph, a node A's
Requires holds an edge to B with version V exactly when B's RequiredBy holds
the mirrored edge back to A with the same V — the pair being appended only
by the single addDependency operation, never independently. -/
theorem C5_mirror_invariant (modFiles : List ModsModule) (a b : Nat) (v : String) :
    (∃ vid ∈ ((BuildDependencyGraph modFiles).2.node a).Requires,
        (BuildDependencyGraph modFiles).2.vertex vid
          = { targetModule := b, targetVersion := v }) ↔
    (∃ vid ∈ ((BuildDependencyGraph modFiles).2.node b).RequiredBy,
        (BuildDependencyGraph modFiles).2.vertex vid
          = { targetModule := a, targetVersion := v }) :=
  (BuildDependencyGraph_HeapWF modFiles).mirror a b v

/-- Claim C8: requirements flagged indirect never produce edges — when every
requirement naming X is indirect, the built graph holds not a single edge
whose target node is named X, even if X itself is a mapped module. -/
theorem C8_indirect_no_edges (modFiles : List ModsModule) (X : String)
    (hall : ∀ mf ∈ modFiles, ∀ r ∈ mf.ModFile.require, r.path = X → r.indirect = true) :
    ∀ a : Nat, ∀ vid ∈ ((BuildDependencyGraph modFiles).2.node a).Requires,
      ((BuildDependencyGraph modFiles).2.node
        (((BuildDependencyGraph modFiles).2.vertex vid).targetModule)).ModuleName ≠ X := by
  intro a vid hvid hname
  obtain ⟨mf, hmf, name, hdecl, hlookA, r, hr, hind, hlookT, hver⟩ :=
    BuildDependencyGraph_origin modFiles a vid hvid
  have hmem := mapLookup_mem _ _ _ hlookT
  have hnames := (BuildDependencyGraph_HeapWF modFiles).names _ hmem
  dsimp only at hnames
  have hpath : r.path = X := by
    rw [← hnames]
    exact hname
  have hcontra := hall mf hmf r hr hpath
  rw [hind] at hcontra
  exact Bool.noConfusion hcontra

/-- Claim C9: construction degrades gracefully — the built mapping holds a
node exactly for the declared module names (a record lacking a module
directive yields no node), every edge's target is again in the mapping
(out-of-mapping requirements are dropped silently), and every edge
originates from a record that does carry a module directive, through a
non-indirect requirement resolving in the mapping (so skipped records and
unresolved requirements contribute no edges, and construction is a total
function — it neither aborts nor returns an error). -/
theorem C9_graceful_build (modFiles : List ModsModule) :
    (∀ n : String,
      (mapLookup (BuildDependencyGraph modFiles).1.modulesMap n).isSome ↔
        ∃ mf ∈ modFiles, mf.ModFile.module = some n) ∧
    (∀ p ∈ (BuildDependencyGraph modFiles).1.modulesMap,
      ∀ vid ∈ ((BuildDependencyGraph modFiles).2.node p.2).Requires,
        inMap (BuildDependencyGraph modFiles).1.modulesMap
          (((BuildDependencyGraph modFiles).2.vertex vid).targetModule)) ∧
    EdgeOrigin (BuildDependencyGraph modFiles).2
      (BuildDependencyGraph modFiles).1.modulesMap modFiles := by
  refine ⟨?_, ?_, ?_⟩
  · intro n
    rw [BuildDependencyGraph_modulesMap]
    exact buildPass1_keys modFiles n
  · exact (BuildDependencyGraph_HeapWF modFiles).reqTgtInMap
  · exact BuildDependencyGraph_origin modFiles

/-- Witness for C8: in the straight-line build no edge targets a module
named C, the hypothesis holding vacuously. -/
theorem C8_witness :
    (∀ mf ∈ [modFileA, modFileB], ∀ r ∈ mf.ModFile.require,
      r.path = "C" → r.indirect = true) ∧
    0 ∈ ((BuildDependencyGraph [modFileA, modFileB]).2.node 0).Requires ∧
    ((BuildDependencyGraph [modFileA, modFileB]).2.node
      (((BuildDependencyGraph [modFileA, modFileB]).2.vertex 0).targetModule)).ModuleName
      ≠ "C" :=
  ⟨by decide, by decide,
    C8_indirect_no_edges [modFileA, modFileB] "C" (by decide) 0 0 (by decide)⟩

/-- Witness for C9 at the straight-line build: the binding of A is in the
mapping, vertex 0 sits in its Requires, and the edge's target is again a
mapping member. -/
theorem C9_witness :
    ("A", 0) ∈ (BuildDependencyGraph [modFileA, modFileB]).1.modulesMap ∧
    0 ∈ ((BuildDependencyGraph [modFileA, modFileB]).2.node 0).Requires ∧
    inMap (BuildDependencyGraph [modFileA, modFileB]).1.modulesMap
      (((BuildDependencyGraph [modFileA, modFileB]).2.vertex 0).targetModule) :=
  ⟨by decide, by decide,
    (C9_graceful_build [modFileA, modFileB]).2.1 ("A", 0) (by decide) 0 (by decide)⟩

/-! ### What the first extraction loop does -/

theorem subgraphRequiresLoop_cons (vid : Nat) (rest : List Nat) (st : ModMap × Heap) :
    subgraphRequiresLoop (vid :: rest) st
      = subgraphRequiresLoop rest (subgraphRequiresStep st vid) := by
  rw [subgraphRequiresLoop, List.foldl_cons]
  rfl

theorem subgraphRequiresLoop_nil (st : ModMap × Heap) :
    subgraphRequiresLoop [] st = st := rfl

theorem subgraphRequiresStep_map (st : ModMap × Heap) (vid : Nat) :
    (subgraphRequiresStep st vid).1
      = mapInsert st.1 ((st.2.node ((st.2.vertex vid).targetModule)).ModuleName)
          st.2.nextNode := rfl

theorem subgraphRequiresStep_nextNode (st : ModMap × Heap) (vid : Nat) :
    (subgraphRequiresStep st vid).2.nextNode = st.2.nextNode + 1 := rfl

theorem subgraphRequiresStep_nextVertex (st : ModMap × Heap) (vid : Nat) :
    (subgraphRequiresStep st vid).2.nextVertex = st.2.nextVertex := rfl

theorem subgraphRequiresStep_node (st : ModMap × Heap) (vid j : Nat) :
    (subgraphRequiresStep st vid).2.node j =
      if j = st.2.nextNode
      then { st.2.node ((st.2.vertex vid).targetModule) with Requires := [] }
      else st.2.node j := rfl

theorem subgraphRequiresStep_vertex (st : ModMap × Heap) (vid w : Nat) :
    (subgraphRequiresStep st vid).2.vertex w =
      if w = vid then { st.2.vertex vid with targetModule := st.2.nextNode }
      else st.2.vertex w := rfl

/-- Precondition of the first loop: the vertex ids are pairwise distinct and
allocated, and their targets are allocated nodes. -/
def Loop1Pre (h : Heap) (l : List Nat) : Prop :=
  l.Nodup ∧ ∀ vid ∈ l, vid < h.nextVertex ∧ (h.vertex vid).targetModule < h.nextNode

theorem Loop1Pre_step (st : ModMap × Heap) (vid : Nat) (rest : List Nat)
    (hpre : Loop1Pre st.2 (vid :: rest)) : Loop1Pre (subgraphRequiresStep st vid).2 rest := by
  obtain ⟨hnodup, hbounds⟩ := hpre
  rw [List.nodup_cons] at hnodup
  refine ⟨hnodup.2, ?_⟩
  intro vid' hvid'
  have hob := hbounds vid' (List.mem_cons_of_mem vid hvid')
  have hne : vid' ≠ vid := by
    intro heq
    rw [heq] at hvid'
    exact hnodup.1 hvid'
  rw [subgraphRequiresStep_nextVertex, subgraphRequiresStep_vertex, if_neg hne,
    subgraphRequiresStep_nextNode]
  exact ⟨hob.1, by omega⟩

/-- The module names of the targets of a list of vertex ids, as read in a
given heap: the keys the extraction loops insert. -/
def targetNames (h : Heap) (l : List Nat) : List String :=
  l.map (fun vid => (h.node ((h.vertex vid).targetModule)).ModuleName)

theorem targetNames_step (st : ModMap × Heap) (vid : Nat) (rest : List Nat)
    (hpre : Loop1Pre st.2 (vid :: rest)) :
    targetNames (subgraphRequiresStep st vid).2 rest = targetNames st.2 rest := by
  obtain ⟨hnodup, hbounds⟩ := hpre
  rw [List.nodup_cons] at hnodup
  unfold targetNames
  refine List.map_congr_left ?_
  intro vid' hvid'
  have hne : vid' ≠ vid := by
    intro heq
    rw [heq] at hvid'
    exact hnodup.1 hvid'
  have hb := hbounds vid' (List.mem_cons_of_mem vid hvid')
  have htne : (st.2.vertex vid').targetModule ≠ st.2.nextNode := by omega
  rw [subgraphRequiresStep_vertex, if_neg hne, subgraphRequiresStep_node, if_neg htne]

theorem subgraphRequiresLoop_nextVertex (l : List Nat) :
    ∀ st : ModMap × Heap, (subgraphRequiresLoop l st).2.nextVertex = st.2.nextVertex := by
  induction l with
  | nil => intro st; rfl
  | cons vid rest ih =>
      intro st
      rw [subgraphRequiresLoop_cons, ih, subgraphRequiresStep_nextVertex]

theorem subgraphRequiresLoop_nextNode (l : List Nat) :
    ∀ st : ModMap × Heap,
      (subgraphRequiresLoop l st).2.nextNode = st.2.nextNode + l.length := by
  induction l with
  | nil => intro st; rfl
  | cons vid rest ih =>
      intro st
      rw [subgraphRequiresLoop_cons, ih, subgraphRequiresStep_nextNode, List.length_cons]
      omega

theorem subgraphRequiresLoop_node_preserved (l : List Nat) :
    ∀ (st : ModMap × Heap) (j : Nat), j < st.2.nextNode →
      (subgraphRequiresLoop l st).2.node j = st.2.node j := by
  induction l with
  | nil => intro st j _; rfl
  | cons vid rest ih =>
      intro st j hj
      have hne : j ≠ st.2.nextNode := by omega
      rw [subgraphRequiresLoop_cons, ih _ j (by
        rw [subgraphRequiresStep_nextNode]; omega), subgraphRequiresStep_node, if_neg hne]

theorem subgraphRequiresLoop_vertex_preserved (l : List Nat) :
    ∀ (st : ModMap × Heap) (w : Nat), w ∉ l →
      (subgraphRequiresLoop l st).2.vertex w = st.2.vertex w := by
  induction l with
  | nil => intro st w _; rfl
  | cons vid rest ih =>
      intro st w hw
      have hne : w ≠ vid := by
        intro heq
        exact hw (heq ▸ List.mem_cons_self vid rest)
      have hwr : w ∉ rest := fun hh => hw (List.mem_cons_of_mem vid hh)
      rw [subgraphRequiresLoop_cons, ih _ w hwr, subgraphRequiresStep_vertex, if_neg hne]

theorem subgraphRequiresLoop_lookup_frame (l : List Nat) :
    ∀ (st : ModMap × Heap) (n : String), Loop1Pre st.2 l → n ∉ targetNames st.2 l →
      mapLookup (subgraphRequiresLoop l st).1 n = mapLookup st.1 n := by
  induction l with
  | nil => intro st n _ _; rfl
  | cons vid rest ih =>
      intro st n hpre hn
      rw [targetNames, List.map_cons, List.mem_cons] at hn
      push_neg at hn
      have hn2 : n ∉ targetNames (subgraphRequiresStep st vid).2 rest := by
        rw [targetNames_step st vid rest hpre]
        exact hn.2
      rw [subgraphRequiresLoop_cons, ih _ n (Loop1Pre_step st vid rest hpre) hn2,
        subgraphRequiresStep_map, mapLookup_mapInsert, if_neg hn.1]

theorem subgraphRequiresLoop_keys (l : List Nat) :
    ∀ (st : ModMap × Heap) (n : String), Loop1Pre st.2 l →
      ((mapLookup (subgraphRequiresLoop l st).1 n).isSome ↔
        ((mapLookup st.1 n).isSome ∨ n ∈ targetNames st.2 l)) := by
  induction l with
  | nil => intro st n _; simp [subgraphRequiresLoop_nil, targetNames]
  | cons vid rest ih =>
      intro st n hpre
      rw [subgraphRequiresLoop_cons, ih _ n (Loop1Pre_step st vid rest hpre),
        targetNames_step st vid rest hpre, subgraphRequiresStep_map,
        mapLookup_mapInsert]
      simp only [targetNames, List.map_cons, List.mem_cons]
      by_cases hn : n = (st.2.node ((st.2.vertex vid).targetModule)).ModuleName
      · simp [hn]
      · rw [if_neg hn]
        constructor
        · rintro (hh | hh)
          · exact Or.inl hh
          · exact Or.inr (Or.inr hh)
        · rintro (hh | hh | hh)
          · exact Or.inl hh
          · exact absurd hh hn
          · exact Or.inr hh

theorem subgraphRequiresLoop_keysNodup (l : List Nat) :
    ∀ st : ModMap × Heap, (mapKeys st.1).Nodup →
      (mapKeys (subgraphRequiresLoop l st).1).Nodup := by
  induction l with
  | nil => intro st hh; exact hh
  | cons vid rest ih =>
      intro st hh
      rw [subgraphRequiresLoop_cons]
      refine ih _ ?_
      rw [subgraphRequiresStep_map]
      exact mapKeys_nodup_mapInsert _ _ _ hh

theorem subgraphRequiresLoop_value (l : List Nat) :
    ∀ st : ModMap × Heap, Loop1Pre st.2 l → ∀ vid ∈ l,
      ∃ cid, st.2.nextNode ≤ cid ∧ cid < (subgraphRequiresLoop l st).2.nextNode ∧
        (subgraphRequiresLoop l st).2.vertex vid
          = { st.2.vertex vid with targetModule := cid } ∧
        (subgraphRequiresLoop l st).2.node cid
          = { st.2.node ((st.2.vertex vid).targetModule) with Requires := [] } ∧
        ((targetNames st.2 l).Nodup →
          mapLookup (subgraphRequiresLoop l st).1
            ((st.2.node ((st.2.vertex vid).targetModule)).ModuleName) = some cid) := by
  induction l with
  | nil => intro st _ vid hvid; simp at hvid
  | cons v0 rest ih =>
      intro st hpre vid hvid
      have hpre' := Loop1Pre_step st v0 rest hpre
      obtain ⟨hnodup, hbounds⟩ := hpre
      rw [List.nodup_cons] at hnodup
      rcases List.mem_cons.mp hvid with heq | hrest
      · subst heq
        refine ⟨st.2.nextNode, Nat.le_refl _, ?_, ?_, ?_, ?_⟩
        · rw [subgraphRequiresLoop_cons, subgraphRequiresLoop_nextNode,
            subgraphRequiresStep_nextNode]
          omega
        · rw [subgraphRequiresLoop_cons,
            subgraphRequiresLoop_vertex_preserved rest _ vid hnodup.1,
            subgraphRequiresStep_vertex, if_pos rfl]
        · rw [subgraphRequiresLoop_cons,
            subgraphRequiresLoop_node_preserved rest _ st.2.nextNode
              (by rw [subgraphRequiresStep_nextNode]; omega),
            subgraphRequiresStep_node, if_pos rfl]
        · intro hnames
          rw [targetNames, List.map_cons, List.nodup_cons] at hnames
          have hnotin : (st.2.node ((st.2.vertex vid).targetModule)).ModuleName
              ∉ targetNames (subgraphRequiresStep st vid).2 rest := by
            rw [targetNames_step st vid rest ⟨List.nodup_cons.mpr hnodup, hbounds⟩]
            exact hnames.1
          rw [subgraphRequiresLoop_cons,
            subgraphRequiresLoop_lookup_frame rest _ _ hpre' hnotin,
            subgraphRequiresStep_map, mapLookup_mapInsert, if_pos rfl]
      · have hne : vid ≠ v0 := by
          intro heq
          rw [heq] at hrest
          exact hnodup.1 hrest
        obtain ⟨cid, hle, hlt, hvert, hnode, hlook⟩ :=
          ih (subgraphRequiresStep st v0) hpre' vid hrest
        have hstv : (subgraphRequiresStep st v0).2.vertex vid = st.2.vertex vid := by
          rw [subgraphRequiresStep_vertex, if_neg hne]
        have hbv := hbounds vid (List.mem_cons_of_mem v0 hrest)
        have htne : (st.2.vertex vid).targetModule ≠ st.2.nextNode := by omega
        have hstn : (subgraphRequiresStep st v0).2.node ((st.2.vertex vid).targetModule)
            = st.2.node ((st.2.vertex vid).targetModule) := by
          rw [subgraphRequiresStep_node, if_neg htne]
        rw [hstv] at hvert hnode hlook
        rw [hstn] at hnode hlook
        refine ⟨cid, ?_, ?_, ?_, ?_, ?_⟩
        · rw [subgraphRequiresStep_nextNode] at hle
          omega
        · rw [subgraphRequiresLoop_cons]
          exact hlt
        · rw [subgraphRequiresLoop_cons]
          exact hvert
        · rw [subgraphRequiresLoop_cons]
          exact hnode
        · intro hnames
          rw [targetNames, List.map_cons, List.nodup_cons] at hnames
          have hnames' : (targetNames (subgraphRequiresStep st v0).2 rest).Nodup := by
            rw [targetNames_step st v0 rest ⟨List.nodup_cons.mpr hnodup, hbounds⟩]
            exact hnames.2
          rw [subgraphRequiresLoop_cons]
          exact hlook hnames'

/-! ### What the second extraction loop does -/

theorem subgraphRequiredByLoop_cons (centerId vid : Nat) (rest : List Nat)
    (st : ModMap × Heap) :
    subgraphRequiredByLoop centerId (vid :: rest) st
      = subgraphRequiredByLoop centerId rest (subgraphRequiredByStep centerId st vid) := by
  rw [subgraphRequiredByLoop, List.foldl_cons]
  rfl

theorem subgraphRequiredByLoop_nil (centerId : Nat) (st : ModMap × Heap) :
    subgraphRequiredByLoop centerId [] st = st := rfl

theorem subgraphRequiredByStep_map (centerId : Nat) (st : ModMap × Heap) (vid : Nat) :
    (subgraphRequiredByStep centerId st vid).1
      = mapInsert st.1 ((st.2.node ((st.2.vertex vid).targetModule)).ModuleName)
          st.2.nextNode := rfl

theorem subgraphRequiredByStep_nextNode (centerId : Nat) (st : ModMap × Heap) (vid : Nat) :
    (subgraphRequiredByStep centerId st vid).2.nextNode = st.2.nextNode + 1 := rfl

theorem subgraphRequiredByStep_nextVertex (centerId : Nat) (st : ModMap × Heap) (vid : Nat) :
    (subgraphRequiredByStep centerId st vid).2.nextVertex = st.2.nextVertex + 1 := rfl

theorem subgraphRequiredByStep_node (centerId : Nat) (st : ModMap × Heap) (vid j : Nat) :
    (subgraphRequiredByStep centerId st vid).2.node j =
      if j = st.2.nextNode
      then { st.2.node ((st.2.vertex vid).targetModule) with Requires := [st.2.nextVertex] }
      else st.2.node j := rfl

theorem subgraphRequiredByStep_vertex (centerId : Nat) (st : ModMap × Heap) (vid w : Nat) :
    (subgraphRequiredByStep centerId st vid).2.vertex w =
      if w = st.2.nextVertex
      then { targetModule := centerId, targetVersion := (st.2.vertex vid).targetVersion }
      else st.2.vertex w := rfl

/-- Precondition of the second loop: the vertex ids and their targets are
allocated. -/
def Loop2Pre (h : Heap) (l : List Nat) : Prop :=
  ∀ vid ∈ l, vid < h.nextVertex ∧ (h.vertex vid).targetModule < h.nextNode

theorem Loop2Pre_step (centerId : Nat) (st : ModMap × Heap) (vid : Nat) (rest : List Nat)
    (hpre : Loop2Pre st.2 (vid :: rest)) :
    Loop2Pre (subgraphRequiredByStep centerId st vid).2 rest := by
  intro vid' hvid'
  have hob := hpre vid' (List.mem_cons_of_mem vid hvid')
  have hne : vid' ≠ st.2.nextVertex := by omega
  rw [subgraphRequiredByStep_nextVertex, subgraphRequiredByStep_vertex, if_neg hne,
    subgraphRequiredByStep_nextNode]
  exact ⟨by omega, by omega⟩

theorem targetNames_step2 (centerId : Nat) (st : ModMap × Heap) (vid : Nat)
    (rest : List Nat) (hpre : Loop2Pre st.2 (vid :: rest)) :
    targetNames (subgraphRequiredByStep centerId st vid).2 rest
      = targetNames st.2 rest := by
  unfold targetNames
  refine List.map_congr_left ?_
  intro vid' hvid'
  have hb := hpre vid' (List.mem_cons_of_mem vid hvid')
  have hne : vid' ≠ st.2.nextVertex := by omega
  have htne : (st.2.vertex vid').targetModule ≠ st.2.nextNode := by omega
  rw [subgraphRequiredByStep_vertex, if_neg hne, subgraphRequiredByStep_node, if_neg htne]

theorem subgraphRequiredByLoop_nextNode (centerId : Nat) (l : List Nat) :
    ∀ st : ModMap × Heap,
      (subgraphRequiredByLoop centerId l st).2.nextNode = st.2.nextNode + l.length := by
  induction l with
  | nil => intro st; rfl
  | cons vid rest ih =>
      intro st
      rw [subgraphRequiredByLoop_cons, ih, subgraphRequiredByStep_nextNode, List.length_cons]
      omega

theorem subgraphRequiredByLoop_nextVertex (centerId : Nat) (l : List Nat) :
    ∀ st : ModMap × Heap,
      (subgraphRequiredByLoop centerId l st).2.nextVertex = st.2.nextVertex + l.length := by
  induction l with
  | nil => intro st; rfl
  | cons vid rest ih =>
      intro st
      rw [subgraphRequiredByLoop_cons, ih, subgraphRequiredByStep_nextVertex,
        List.length_cons]
      omega

theorem subgraphRequiredByLoop_node_preserved (centerId : Nat) (l : List Nat) :
    ∀ (st : ModMap × Heap) (j : Nat), j < st.2.nextNode →
      (subgraphRequiredByLoop centerId l st).2.node j = st.2.node j := by
  induction l with
  | nil => intro st j _; rfl
  | cons vid rest ih =>
      intro st j hj
      have hne : j ≠ st.2.nextNode := by omega
      rw [subgraphRequiredByLoop_cons, ih _ j (by
        rw [subgraphRequiredByStep_nextNode]; omega),
        subgraphRequiredByStep_node, if_neg hne]

theorem subgraphRequiredByLoop_vertex_preserved (centerId : Nat) (l : List Nat) :
    ∀ (st : ModMap × Heap) (w : Nat), w < st.2.nextVertex →
      (subgraphRequiredByLoop centerId l st).2.vertex w = st.2.vertex w := by
  induction l with
  | nil => intro st w _; rfl
  | cons vid rest ih =>
      intro st w hw
      have hne : w ≠ st.2.nextVertex := by omega
      rw [subgraphRequiredByLoop_cons, ih _ w (by
        rw [subgraphRequiredByStep_nextVertex]; omega),
        subgraphRequiredByStep_vertex, if_neg hne]

theorem subgraphRequiredByLoop_lookup_frame (centerId : Nat) (l : List Nat) :
    ∀ (st : ModMap × Heap) (n : String), Loop2Pre st.2 l → n ∉ targetNames st.2 l →
      mapLookup (subgraphRequiredByLoop centerId l st).1 n = mapLookup st.1 n := by
  induction l with
  | nil => intro st n _ _; rfl
  | cons vid rest ih =>
      intro st n hpre hn
      rw [targetNames, List.map_cons, List.mem_cons] at hn
      push_neg at hn
      have hn2 : n ∉ targetNames (subgraphRequiredByStep centerId st vid).2 rest := by
        rw [targetNames_step2 centerId st vid rest hpre]
        exact hn.2
      rw [subgraphRequiredByLoop_cons,
        ih _ n (Loop2Pre_step centerId st vid rest hpre) hn2,
        subgraphRequiredByStep_map, mapLookup_mapInsert, if_neg hn.1]

theorem subgraphRequiredByLoop_keys (centerId : Nat) (l : List Nat) :
    ∀ (st : ModMap × Heap) (n : String), Loop2Pre st.2 l →
      ((mapLookup (subgraphRequiredByLoop centerId l st).1 n).isSome ↔
        ((mapLookup st.1 n).isSome ∨ n ∈ targetNames st.2 l)) := by
  induction l with
  | nil => intro st n _; simp [subgraphRequiredByLoop_nil, targetNames]
  | cons vid rest ih =>
      intro st n hpre
      rw [subgraphRequiredByLoop_cons, ih _ n (Loop2Pre_step centerId st vid rest hpre),
        targetNames_step2 centerId st vid rest hpre, subgraphRequiredByStep_map,
        mapLookup_mapInsert]
      simp only [targetNames, List.map_cons, List.mem_cons]
      by_cases hn : n = (st.2.node ((st.2.vertex vid).targetModule)).ModuleName
      · simp [hn]
      · rw [if_neg hn]
        constructor
        · rintro (hh | hh)
          · exact Or.inl hh
          · exact Or.inr (Or.inr hh)
        · rintro (hh | hh | hh)
          · exact Or.inl hh
          · exact absurd hh hn
          · exact Or.inr hh

theorem subgraphRequiredByLoop_keysNodup (centerId : Nat) (l : List Nat) :
    ∀ st : ModMap × Heap, (mapKeys st.1).Nodup →
      (mapKeys (subgraphRequiredByLoop centerId l st).1).Nodup := by
  induction l with
  | nil => intro st hh; exact hh
  | cons vid rest ih =>
      intro st hh
      rw [subgraphRequiredByLoop_cons]
      refine ih _ ?_
      rw [subgraphRequiredByStep_map]
      exact mapKeys_nodup_mapInsert _ _ _ hh

theorem subgraphRequiredByLoop_value (centerId : Nat) (l : List Nat) :
    ∀ st : ModMap × Heap, Loop2Pre st.2 l → ∀ n ∈ targetNames st.2 l,
      ∃ vid ∈ l, n = (st.2.node ((st.2.vertex vid).targetModule)).ModuleName ∧
      ∃ cid evid, st.2.nextNode ≤ cid ∧
        mapLookup (subgraphRequiredByLoop centerId l st).1 n = some cid ∧
        (subgraphRequiredByLoop centerId l st).2.node cid
          = { st.2.node ((st.2.vertex vid).targetModule) with Requires := [evid] } ∧
        (subgraphRequiredByLoop centerId l st).2.vertex evid
          = { targetModule := centerId,
              targetVersion := (st.2.vertex vid).targetVersion } := by
  induction l with
  | nil => intro st _ n hn; simp [targetNames] at hn
  | cons v0 rest ih =>
      intro st hpre n hn
      have hpre' := Loop2Pre_step centerId st v0 rest hpre
      have hb0 := hpre v0 (List.mem_cons_self v0 rest)
      by_cases hmem : n ∈ targetNames (subgraphRequiredByStep centerId st v0).2 rest
      · obtain ⟨vid, hvid, hname, cid, evid, hle, hlook, hnode, hvert⟩ :=
          ih (subgraphRequiredByStep centerId st v0) hpre' n hmem
        have hbv := hpre vid (List.mem_cons_of_mem v0 hvid)
        have hnev : vid ≠ st.2.nextVertex := by omega
        have hstv : (subgraphRequiredByStep centerId st v0).2.vertex vid
            = st.2.vertex vid := by
          rw [subgraphRequiredByStep_vertex, if_neg hnev]
        have htne : (st.2.vertex vid).targetModule ≠ st.2.nextNode := by omega
        have hstn : (subgraphRequiredByStep centerId st v0).2.node
            ((st.2.vertex vid).targetModule) = st.2.node ((st.2.vertex vid).targetModule) := by
          rw [subgraphRequiredByStep_node, if_neg htne]
        rw [hstv] at hname hnode hvert
        rw [hstn] at hname hnode
        refine ⟨vid, List.mem_cons_of_mem v0 hvid, hname, cid, evid, ?_, ?_, ?_, ?_⟩
        · rw [subgraphRequiredByStep_nextNode] at hle
          omega
        · rw [subgraphRequiredByLoop_cons]
          exact hlook
        · rw [subgraphRequiredByLoop_cons]
          exact hnode
        · rw [subgraphRequiredByLoop_cons]
          exact hvert
      · have hn0 : n = (st.2.node ((st.2.vertex v0).targetModule)).ModuleName := by
          rw [targetNames, List.map_cons, List.mem_cons] at hn
          rcases hn with hh | hh
          · exact hh
          · rw [targetNames_step2 centerId st v0 rest hpre] at hmem
            exact absurd hh hmem
        refine ⟨v0, List.mem_cons_self v0 rest, hn0, st.2.nextNode, st.2.nextVertex,
          Nat.le_refl _, ?_, ?_, ?_⟩
        · rw [subgraphRequiredByLoop_cons,
            subgraphRequiredByLoop_lookup_frame centerId rest _ n hpre' hmem,
            subgraphRequiredByStep_map, mapLookup_mapInsert, if_pos hn0]
        · rw [subgraphRequiredByLoop_cons,
            subgraphRequiredByLoop_node_preserved centerId rest _ st.2.nextNode
              (by rw [subgraphRequiredByStep_nextNode]; omega),
            subgraphRequiredByStep_node, if_pos rfl]
        · rw [subgraphRequiredByLoop_cons,
            subgraphRequiredByLoop_vertex_preserved centerId rest _ st.2.nextVertex
              (by rw [subgraphRequiredByStep_nextVertex]; omega),
            subgraphRequiredByStep_vertex, if_pos rfl]

theorem subgraphRequiresLoop_value_byName (l : List Nat) :
    ∀ st : ModMap × Heap, Loop1Pre st.2 l → ∀ n ∈ targetNames st.2 l,
      ∃ vid ∈ l, n = (st.2.node ((st.2.vertex vid).targetModule)).ModuleName ∧
      ∃ cid, st.2.nextNode ≤ cid ∧ cid < (subgraphRequiresLoop l st).2.nextNode ∧
        mapLookup (subgraphRequiresLoop l st).1 n = some cid ∧
        (subgraphRequiresLoop l st).2.node cid
          = { st.2.node ((st.2.vertex vid).targetModule) with Requires := [] } := by
  induction l with
  | nil => intro st _ n hn; simp [targetNames] at hn
  | cons v0 rest ih =>
      intro st hpre n hn
      have hpre' := Loop1Pre_step st v0 rest hpre
      obtain ⟨hnodup0, hbounds0⟩ := hpre
      rw [List.nodup_cons] at hnodup0
      by_cases hmem : n ∈ targetNames (subgraphRequiresStep st v0).2 rest
      · obtain ⟨vid, hvid, hname, cid, hle, hlt, hlook, hnode⟩ :=
          ih (subgraphRequiresStep st v0) hpre' n hmem
        have hnev : vid ≠ v0 := by
          intro heq
          rw [heq] at hvid
          exact hnodup0.1 hvid
        have hstv : (subgraphRequiresStep st v0).2.vertex vid = st.2.vertex vid := by
          rw [subgraphRequiresStep_vertex, if_neg hnev]
        have hbv := hbounds0 vid (List.mem_cons_of_mem v0 hvid)
        have htne : (st.2.vertex vid).targetModule ≠ st.2.nextNode := by omega
        have hstn : (subgraphRequiresStep st v0).2.node ((st.2.vertex vid).targetModule)
            = st.2.node ((st.2.vertex vid).targetModule) := by
          rw [subgraphRequiresStep_node, if_neg htne]
        rw [hstv] at hname hnode
        rw [hstn] at hname hnode
        refine ⟨vid, List.mem_cons_of_mem v0 hvid, hname, cid, ?_, ?_, ?_, ?_⟩
        · rw [subgraphRequiresStep_nextNode] at hle
          omega
        · rw [subgraphRequiresLoop_cons]
          exact hlt
        · rw [subgraphRequiresLoop_cons]
          exact hlook
        · rw [subgraphRequiresLoop_cons]
          exact hnode
      · have hn0 : n = (st.2.node ((st.2.vertex v0).targetModule)).ModuleName := by
          rw [targetNames, List.map_cons, List.mem_cons] at hn
          rcases hn with hh | hh
          · exact hh
          · rw [targetNames_step st v0 rest
              ⟨List.nodup_cons.mpr hnodup0, hbounds0⟩] at hmem
            exact absurd hh hmem
        refine ⟨v0, List.mem_cons_self v0 rest, hn0, st.2.nextNode, Nat.le_refl _,
          ?_, ?_, ?_⟩
        · rw [subgraphRequiresLoop_cons, subgraphRequiresLoop_nextNode,
            subgraphRequiresStep_nextNode]
          omega
        · rw [subgraphRequiresLoop_cons,
            subgraphRequiresLoop_lookup_frame rest _ n hpre' hmem,
            subgraphRequiresStep_map, mapLookup_mapInsert, if_pos hn0]
        · rw [subgraphRequiresLoop_cons,
            subgraphRequiresLoop_node_preserved rest _ st.2.nextNode
              (by rw [subgraphRequiresStep_nextNode]; omega),
            subgraphRequiresStep_node, if_pos rfl]

/-! ### Assembling SubgraphFrom from its pieces -/

/-- The heap right after the center copy is allocated. -/
def subCenterHeap (h : Heap) (c : Nat) : Heap :=
  (h.allocNode { h.node c with Highlight := true }).2

/-- Map and heap after the dependency loop. -/
def subSt1 (h : Heap) (c : Nat) : ModMap × Heap :=
  subgraphRequiresLoop (h.node c).Requires
    ([((h.node c).ModuleName, h.nextNode)], subCenterHeap h c)

/-- Map and heap after the dependent loop: the final state SubgraphFrom
packages up. -/
def subSt2 (h : Heap) (c : Nat) : ModMap × Heap :=
  subgraphRequiredByLoop h.nextNode (h.node c).RequiredBy (subSt1 h c)

theorem SubgraphFrom_eq (d : DependencyGraph) (h : Heap) (c : Nat)
    (hsub : d.isSubgraph = false) :
    SubgraphFrom d h c
      = some (NewDependencyGraph (subSt2 h c).2 (subSt2 h c).1 true, (subSt2 h c).2) := by
  rw [SubgraphFrom, if_neg (by simp [hsub])]
  rfl

theorem subCenterHeap_nextNode (h : Heap) (c : Nat) :
    (subCenterHeap h c).nextNode = h.nextNode + 1 := rfl

theorem subCenterHeap_nextVertex (h : Heap) (c : Nat) :
    (subCenterHeap h c).nextVertex = h.nextVertex := rfl

theorem subCenterHeap_vertex (h : Heap) (c : Nat) :
    (subCenterHeap h c).vertex = h.vertex := rfl

theorem subCenterHeap_node (h : Heap) (c j : Nat) :
    (subCenterHeap h c).node j =
      if j = h.nextNode then { h.node c with Highlight := true } else h.node j := rfl

theorem subgraph_setup (h : Heap) (c : Nat)
    (hReqNodup : ((h.node c).Requires).Nodup)
    (hReqV : ∀ vid ∈ (h.node c).Requires, vid < h.nextVertex)
    (hReqT : ∀ vid ∈ (h.node c).Requires, (h.vertex vid).targetModule < h.nextNode)
    (hRbV : ∀ vid ∈ (h.node c).RequiredBy, vid < h.nextVertex)
    (hRbT : ∀ vid ∈ (h.node c).RequiredBy, (h.vertex vid).targetModule < h.nextNode)
    (hRoles : ∀ vid ∈ (h.node c).RequiredBy, vid ∉ (h.node c).Requires) :
    Loop1Pre (subCenterHeap h c) ((h.node c).Requires) ∧
    targetNames (subCenterHeap h c) ((h.node c).Requires)
      = targetNames h ((h.node c).Requires) ∧
    Loop2Pre (subSt1 h c).2 ((h.node c).RequiredBy) ∧
    targetNames (subSt1 h c).2 ((h.node c).RequiredBy)
      = targetNames h ((h.node c).RequiredBy) ∧
    (∀ vid ∈ (h.node c).RequiredBy, (subSt1 h c).2.vertex vid = h.vertex vid) ∧
    (subSt1 h c).2.nextVertex = h.nextVertex ∧
    (subSt1 h c).2.nextNode = h.nextNode + 1 + ((h.node c).Requires).length ∧
    (∀ j, j < h.nextNode → (subSt1 h c).2.node j = h.node j) ∧
    (subSt1 h c).2.node h.nextNode = { h.node c with Highlight := true } := by
  have hpre1 : Loop1Pre (subCenterHeap h c) ((h.node c).Requires) := by
    refine ⟨hReqNodup, ?_⟩
    intro vid hvid
    rw [subCenterHeap_nextVertex, subCenterHeap_vertex, subCenterHeap_nextNode]
    have h1 := hReqV vid hvid
    have h2 := hReqT vid hvid
    exact ⟨h1, by omega⟩
  have hnames1 : targetNames (subCenterHeap h c) ((h.node c).Requires)
      = targetNames h ((h.node c).Requires) := by
    unfold targetNames
    refine List.map_congr_left ?_
    intro vid hvid
    have h2 := hReqT vid hvid
    rw [subCenterHeap_vertex, subCenterHeap_node, if_neg (by omega)]
  have hnn1 : (subSt1 h c).2.nextNode = h.nextNode + 1 + ((h.node c).Requires).length := by
    rw [subSt1, subgraphRequiresLoop_nextNode]
    rw [show ((((h.node c).ModuleName, h.nextNode) :: []), subCenterHeap h c).2
        = subCenterHeap h c from rfl, subCenterHeap_nextNode]
  have hnv1 : (subSt1 h c).2.nextVertex = h.nextVertex := by
    rw [subSt1, subgraphRequiresLoop_nextVertex]
    rfl
  have hnodepres : ∀ j, j < h.nextNode → (subSt1 h c).2.node j = h.node j := by
    intro j hj
    rw [subSt1, subgraphRequiresLoop_node_preserved _ _ j
      (by rw [show ((((h.node c).ModuleName, h.nextNode) :: []), subCenterHeap h c).2
          = subCenterHeap h c from rfl, subCenterHeap_nextNode]; omega)]
    rw [show ((((h.node c).ModuleName, h.nextNode) :: []), subCenterHeap h c).2
        = subCenterHeap h c from rfl, subCenterHeap_node, if_neg (by omega)]
  have hcenterpres : (subSt1 h c).2.node h.nextNode
      = { h.node c with Highlight := true } := by
    rw [subSt1, subgraphRequiresLoop_node_preserved _ _ h.nextNode
      (by rw [show ((((h.node c).ModuleName, h.nextNode) :: []), subCenterHeap h c).2
          = subCenterHeap h c from rfl, subCenterHeap_nextNode]; omega)]
    rw [show ((((h.node c).ModuleName, h.nextNode) :: []), subCenterHeap h c).2
        = subCenterHeap h c from rfl, subCenterHeap_node, if_pos rfl]
  have hvertB : ∀ vid ∈ (h.node c).RequiredBy, (subSt1 h c).2.vertex vid = h.vertex vid := by
    intro vid hvid
    rw [subSt1, subgraphRequiresLoop_vertex_preserved _ _ vid (hRoles vid hvid)]
    rw [show ((((h.node c).ModuleName, h.nextNode) :: []), subCenterHeap h c).2
        = subCenterHeap h c from rfl, subCenterHeap_vertex]
  have hpre2 : Loop2Pre (subSt1 h c).2 ((h.node c).RequiredBy) := by
    intro vid hvid
    rw [hnv1, hvertB vid hvid, hnn1]
    have h1 := hRbV vid hvid
    have h2 := hRbT vid hvid
    exact ⟨h1, by omega⟩
  have hnames2 : targetNames (subSt1 h c).2 ((h.node c).RequiredBy)
      = targetNames h ((h.node c).RequiredBy) := by
    unfold targetNames
    refine List.map_congr_left ?_
    intro vid hvid
    have h2 := hRbT vid hvid
    rw [hvertB vid hvid, hnodepres _ h2]
  exact ⟨hpre1, hnames1, hpre2, hnames2, hvertB, hnv1, hnn1, hnodepres, hcenterpres⟩

theorem mapLookup_single_isSome (k : String) (v : Nat) (n : String) :
    (mapLookup [(k, v)] n).isSome ↔ n = k := by
  by_cases hn : k = n
  · simp [mapLookup, hn]
  · have hn' : ¬ n = k := fun hh => hn hh.symm
    simp [mapLookup, hn, hn']

/-- Claim C3 (amended): the key set of the derived mapping is exactly the
center's name together with the names of its direct-dependency targets and
of its direct dependents, so every module outside this set — in particular
every dependency of a dependency that is not itself in the neighborhood —
is absent; and the copy stored for a direct-dependency name that is not
also a dependent name has an empty Requires sequence (dependencies pruned,
no second-order expansion).  A module that is both a direct dependency and
a direct dependent keeps the single edge back to the center copy, the
dependent loop having overwritten the pruned dependency copy
(see the counterexample). -/
theorem C3_subgraph_node_set (modFiles : List ModsModule) (c : Nat)
    (g' : DependencyGraph) (h' : Heap)
    (hsome : SubgraphFrom (BuildDependencyGraph modFiles).1
        (BuildDependencyGraph modFiles).2 c = some (g', h')) :
    (∀ n : String,
      (mapLookup g'.modulesMap n).isSome ↔
        (n = ((BuildDependencyGraph modFiles).2.node c).ModuleName ∨
          n ∈ targetNames (BuildDependencyGraph modFiles).2
                ((BuildDependencyGraph modFiles).2.node c).Requires ∨
          n ∈ targetNames (BuildDependencyGraph modFiles).2
                ((BuildDependencyGraph modFiles).2.node c).RequiredBy)) ∧
    (∀ n ∈ targetNames (BuildDependencyGraph modFiles).2
        ((BuildDependencyGraph modFiles).2.node c).Requires,
      n ∉ targetNames (BuildDependencyGraph modFiles).2
          ((BuildDependencyGraph modFiles).2.node c).RequiredBy →
      ∃ id, mapLookup g'.modulesMap n = some id ∧ (h'.node id).Requires = []) := by
  have hwf := BuildDependencyGraph_HeapWF modFiles
  rw [SubgraphFrom_eq _ _ c rfl] at hsome
  injection hsome with hpair
  have hg : g' = NewDependencyGraph (subSt2 (BuildDependencyGraph modFiles).2 c).2
      (subSt2 (BuildDependencyGraph modFiles).2 c).1 true := (congrArg Prod.fst hpair).symm
  have hh : h' = (subSt2 (BuildDependencyGraph modFiles).2 c).2 :=
    (congrArg Prod.snd hpair).symm
  subst hg
  subst hh
  obtain ⟨hpre1, hnames1, hpre2, hnames2, hvertB, hnv1, hnn1, hnodepres, hcenterpres⟩ :=
    subgraph_setup (BuildDependencyGraph modFiles).2 c (hwf.reqNodup c)
      (hwf.reqVidBound c) (hwf.reqTgtBound c) (hwf.rbVidBound c) (hwf.rbTgtBound c)
      (fun vid hvid hreq => hwf.rolesDisjoint c c vid hreq hvid)
  constructor
  · intro n
    show (mapLookup (subSt2 (BuildDependencyGraph modFiles).2 c).1 n).isSome ↔ _
    rw [subSt2, subgraphRequiredByLoop_keys _ _ _ n hpre2, hnames2]
    rw [subSt1, subgraphRequiresLoop_keys _ _ n (by exact hpre1)]
    rw [show (((((BuildDependencyGraph modFiles).2.node c).ModuleName,
        (BuildDependencyGraph modFiles).2.nextNode) :: []),
        subCenterHeap (BuildDependencyGraph modFiles).2 c).2
        = subCenterHeap (BuildDependencyGraph modFiles).2 c from rfl]
    rw [hnames1]
    rw [show (((((BuildDependencyGraph modFiles).2.node c).ModuleName,
        (BuildDependencyGraph modFiles).2.nextNode) :: []),
        subCenterHeap (BuildDependencyGraph modFiles).2 c).1
        = [(((BuildDependencyGraph modFiles).2.node c).ModuleName,
            (BuildDependencyGraph modFiles).2.nextNode)] from rfl]
    rw [mapLookup_single_isSome]
    rw [or_assoc]
  · intro n hnR hnB
    have hnR' : n ∈ targetNames (subCenterHeap (BuildDependencyGraph modFiles).2 c)
        ((BuildDependencyGraph modFiles).2.node c).Requires := by
      rw [hnames1]
      exact hnR
    obtain ⟨vid, hvid, hname, cid, hle, hlt, hlook, hnode⟩ :=
      subgraphRequiresLoop_value_byName ((BuildDependencyGraph modFiles).2.node c).Requires
        ([(((BuildDependencyGraph modFiles).2.node c).ModuleName,
            (BuildDependencyGraph modFiles).2.nextNode)],
          subCenterHeap (BuildDependencyGraph modFiles).2 c) hpre1 n hnR'
    have hnB' : n ∉ targetNames (subSt1 (BuildDependencyGraph modFiles).2 c).2
        ((BuildDependencyGraph modFiles).2.node c).RequiredBy := by
      rw [hnames2]
      exact hnB
    refine ⟨cid, ?_, ?_⟩
    · show mapLookup (subSt2 (BuildDependencyGraph modFiles).2 c).1 n = some cid
      rw [subSt2, subgraphRequiredByLoop_lookup_frame _ _ _ n hpre2 hnB']
      exact hlook
    · show ((subSt2 (BuildDependencyGraph modFiles).2 c).2.node cid).Requires = []
      rw [subSt2, subgraphRequiredByLoop_node_preserved
        (BuildDependencyGraph modFiles).2.nextNode
        ((BuildDependencyGraph modFiles).2.node c).RequiredBy
        (subSt1 (BuildDependencyGraph modFiles).2 c) cid hlt]
      rw [show (subSt1 (BuildDependencyGraph modFiles).2 c)
          = subgraphRequiresLoop ((BuildDependencyGraph modFiles).2.node c).Requires
            ([(((BuildDependencyGraph modFiles).2.node c).ModuleName,
              (BuildDependencyGraph modFiles).2.nextNode)],
              subCenterHeap (BuildDependencyGraph modFiles).2 c) from rfl,
        hnode]

theorem subSt2_keys (h : Heap) (c : Nat)
    (hReqNodup : ((h.node c).Requires).Nodup)
    (hReqV : ∀ vid ∈ (h.node c).Requires, vid < h.nextVertex)
    (hReqT : ∀ vid ∈ (h.node c).Requires, (h.vertex vid).targetModule < h.nextNode)
    (hRbV : ∀ vid ∈ (h.node c).RequiredBy, vid < h.nextVertex)
    (hRbT : ∀ vid ∈ (h.node c).RequiredBy, (h.vertex vid).targetModule < h.nextNode)
    (hRoles : ∀ vid ∈ (h.node c).RequiredBy, vid ∉ (h.node c).Requires) :
    ∀ n : String, (mapLookup (subSt2 h c).1 n).isSome ↔
      (n = (h.node c).ModuleName ∨ n ∈ targetNames h ((h.node c).Requires) ∨
        n ∈ targetNames h ((h.node c).RequiredBy)) := by
  obtain ⟨hpre1, hnames1, hpre2, hnames2, hvertB, hnv1, hnn1, hnodepres, hcenterpres⟩ :=
    subgraph_setup h c hReqNodup hReqV hReqT hRbV hRbT hRoles
  intro n
  rw [subSt2, subgraphRequiredByLoop_keys _ _ _ n hpre2, hnames2]
  rw [subSt1, subgraphRequiresLoop_keys _ _ n (by exact hpre1)]
  rw [show ((([((h.node c).ModuleName, h.nextNode)]), subCenterHeap h c)).2
      = subCenterHeap h c from rfl]
  rw [hnames1]
  rw [show ((([((h.node c).ModuleName, h.nextNode)]), subCenterHeap h c)).1
      = [((h.node c).ModuleName, h.nextNode)] from rfl]
  rw [mapLookup_single_isSome]
  rw [or_assoc]

theorem subSt2_keysNodup (h : Heap) (c : Nat) :
    (mapKeys (subSt2 h c).1).Nodup := by
  rw [subSt2]
  refine subgraphRequiredByLoop_keysNodup _ _ _ ?_
  rw [subSt1]
  refine subgraphRequiresLoop_keysNodup _ _ ?_
  simp [mapKeys]

theorem subSt2_vertex_frame (h : Heap) (c : Nat)
    (hwf : HeapWF h m) :
    ∀ o : Nat, ∀ w ∈ (h.node o).RequiredBy, (subSt2 h c).2.vertex w = h.vertex w := by
  intro o w hw
  have hwv : w < h.nextVertex := hwf.rbVidBound o w hw
  have hwr : w ∉ (h.node c).Requires := by
    intro hreq
    exact hwf.rolesDisjoint c o w hreq hw
  rw [subSt2, subgraphRequiredByLoop_vertex_preserved _ _ _ w (by
    rw [subSt1, subgraphRequiresLoop_nextVertex]
    rw [show ((([((h.node c).ModuleName, h.nextNode)]), subCenterHeap h c)).2
        = subCenterHeap h c from rfl, subCenterHeap_nextVertex]
    exact hwv)]
  rw [subSt1, subgraphRequiresLoop_vertex_preserved _ _ w hwr]
  rw [show ((([((h.node c).ModuleName, h.nextNode)]), subCenterHeap h c)).2
      = subCenterHeap h c from rfl, subCenterHeap_vertex]

/-- Claim C10: every node copied into a derived graph by SubgraphFrom — the
center copy, the direct-dependency copies, and the direct-dependent copies —
keeps its original's RequiredBy sequence unchanged (the clone is shallow:
only Requires is cleared or replaced), the vertices of that sequence
themselves being left untouched by the extraction. -/
theorem C10_clone_shares_requiredBy (modFiles : List ModsModule) (c : Nat)
    (g' : DependencyGraph) (h' : Heap)
    (hsome : SubgraphFrom (BuildDependencyGraph modFiles).1
        (BuildDependencyGraph modFiles).2 c = some (g', h')) :
    ∀ p ∈ g'.modulesMap,
      ∃ orig : Nat,
        (orig = c ∨
          (∃ vid ∈ ((BuildDependencyGraph modFiles).2.node c).Requires,
            orig = ((BuildDependencyGraph modFiles).2.vertex vid).targetModule) ∨
          (∃ vid ∈ ((BuildDependencyGraph modFiles).2.node c).RequiredBy,
            orig = ((BuildDependencyGraph modFiles).2.vertex vid).targetModule)) ∧
        (h'.node p.2).RequiredBy
          = ((BuildDependencyGraph modFiles).2.node orig).RequiredBy ∧
        (h'.node p.2).ModuleName
          = ((BuildDependencyGraph modFiles).2.node orig).ModuleName ∧
        (∀ w ∈ ((BuildDependencyGraph modFiles).2.node orig).RequiredBy,
          h'.vertex w = (BuildDependencyGraph modFiles).2.vertex w) := by
  have hwf := BuildDependencyGraph_HeapWF modFiles
  rw [SubgraphFrom_eq _ _ c rfl] at hsome
  injection hsome with hpair
  have hg : g' = NewDependencyGraph (subSt2 (BuildDependencyGraph modFiles).2 c).2
      (subSt2 (BuildDependencyGraph modFiles).2 c).1 true := (congrArg Prod.fst hpair).symm
  have hh : h' = (subSt2 (BuildDependencyGraph modFiles).2 c).2 :=
    (congrArg Prod.snd hpair).symm
  subst hg
  subst hh
  have hRoles : ∀ vid ∈ ((BuildDependencyGraph modFiles).2.node c).RequiredBy,
      vid ∉ ((BuildDependencyGraph modFiles).2.node c).Requires :=
    fun vid hvid hreq => hwf.rolesDisjoint c c vid hreq hvid
  obtain ⟨hpre1, hnames1, hpre2, hnames2, hvertB, hnv1, hnn1, hnodepres, hcenterpres⟩ :=
    subgraph_setup (BuildDependencyGraph modFiles).2 c (hwf.reqNodup c)
      (hwf.reqVidBound c) (hwf.reqTgtBound c) (hwf.rbVidBound c) (hwf.rbTgtBound c) hRoles
  intro p hp
  have hp' : p ∈ (subSt2 (BuildDependencyGraph modFiles).2 c).1 := hp
  have hlookp : mapLookup (subSt2 (BuildDependencyGraph modFiles).2 c).1 p.1 = some p.2 :=
    mem_mapLookup_of_nodup _ p.1 p.2 (subSt2_keysNodup _ c) hp'
  have hsome' : (mapLookup (subSt2 (BuildDependencyGraph modFiles).2 c).1 p.1).isSome := by
    rw [hlookp]
    rfl
  have htri := (subSt2_keys (BuildDependencyGraph modFiles).2 c (hwf.reqNodup c)
      (hwf.reqVidBound c) (hwf.reqTgtBound c) (hwf.rbVidBound c) (hwf.rbTgtBound c)
      hRoles p.1).mp hsome'
  have hwpres := subSt2_vertex_frame (BuildDependencyGraph modFiles).2 c hwf
  by_cases hB : p.1 ∈ targetNames (BuildDependencyGraph modFiles).2
      ((BuildDependencyGraph modFiles).2.node c).RequiredBy
  · have hB' : p.1 ∈ targetNames (subSt1 (BuildDependencyGraph modFiles).2 c).2
        ((BuildDependencyGraph modFiles).2.node c).RequiredBy := by
      rw [hnames2]
      exact hB
    obtain ⟨vid, hvid, hname, cid, evid, hle, hlook, hnode, hvert⟩ :=
      subgraphRequiredByLoop_value (BuildDependencyGraph modFiles).2.nextNode
        ((BuildDependencyGraph modFiles).2.node c).RequiredBy
        (subSt1 (BuildDependencyGraph modFiles).2 c) hpre2 p.1 hB'
    have hlook2 : mapLookup (subSt2 (BuildDependencyGraph modFiles).2 c).1 p.1
        = some cid := hlook
    have hcid : cid = p.2 := by
      rw [hlookp] at hlook2
      exact (Option.some.inj hlook2).symm
    have hv' := hvertB vid hvid
    have htb := hwf.rbTgtBound c vid hvid
    have hn' : (subSt1 (BuildDependencyGraph modFiles).2 c).2.node
        (((subSt1 (BuildDependencyGraph modFiles).2 c).2.vertex vid).targetModule)
        = (BuildDependencyGraph modFiles).2.node
          (((BuildDependencyGraph modFiles).2.vertex vid).targetModule) := by
      rw [hv']
      exact hnodepres _ htb
    rw [hn'] at hnode
    have hnode2 : (subSt2 (BuildDependencyGraph modFiles).2 c).2.node cid
        = { (BuildDependencyGraph modFiles).2.node
              (((BuildDependencyGraph modFiles).2.vertex vid).targetModule) with
            Requires := [evid] } := hnode
    refine ⟨((BuildDependencyGraph modFiles).2.vertex vid).targetModule,
      Or.inr (Or.inr ⟨vid, hvid, rfl⟩), ?_, ?_, hwpres _⟩
    · rw [← hcid, hnode2]
    · rw [← hcid, hnode2]
  · by_cases hR : p.1 ∈ targetNames (BuildDependencyGraph modFiles).2
        ((BuildDependencyGraph modFiles).2.node c).Requires
    · have hR' : p.1 ∈ targetNames
          (subCenterHeap (BuildDependencyGraph modFiles).2 c)
          ((BuildDependencyGraph modFiles).2.node c).Requires := by
        rw [hnames1]
        exact hR
      obtain ⟨vid, hvid, hname, cid, hle, hlt, hlook, hnode⟩ :=
        subgraphRequiresLoop_value_byName
          ((BuildDependencyGraph modFiles).2.node c).Requires
          ([(((BuildDependencyGraph modFiles).2.node c).ModuleName,
              (BuildDependencyGraph modFiles).2.nextNode)],
            subCenterHeap (BuildDependencyGraph modFiles).2 c) hpre1 p.1 hR'
      have hlook1 : mapLookup (subSt1 (BuildDependencyGraph modFiles).2 c).1 p.1
          = some cid := hlook
      have hB' : p.1 ∉ targetNames (subSt1 (BuildDependencyGraph modFiles).2 c).2
          ((BuildDependencyGraph modFiles).2.node c).RequiredBy := by
        rw [hnames2]
        exact hB
      have hlook2 : mapLookup (subSt2 (BuildDependencyGraph modFiles).2 c).1 p.1
          = some cid := by
        rw [subSt2, subgraphRequiredByLoop_lookup_frame _ _ _ p.1 hpre2 hB']
        exact hlook1
      have hcid : cid = p.2 := by
        rw [hlookp] at hlook2
        exact (Option.some.inj hlook2).symm
      have htb := hwf.reqTgtBound c vid hvid
      have hn' : (subCenterHeap (BuildDependencyGraph modFiles).2 c).node
          (((subCenterHeap (BuildDependencyGraph modFiles).2 c).vertex vid).targetModule)
          = (BuildDependencyGraph modFiles).2.node
            (((BuildDependencyGraph modFiles).2.vertex vid).targetModule) := by
        rw [subCenterHeap_vertex, subCenterHeap_node, if_neg (by omega)]
      rw [hn'] at hnode
      have hnode1 : (subSt1 (BuildDependencyGraph modFiles).2 c).2.node cid
          = { (BuildDependencyGraph modFiles).2.node
                (((BuildDependencyGraph modFiles).2.vertex vid).targetModule) with
              Requires := [] } := hnode
      have hnode2 : (subSt2 (BuildDependencyGraph modFiles).2 c).2.node cid
          = { (BuildDependencyGraph modFiles).2.node
                (((BuildDependencyGraph modFiles).2.vertex vid).targetModule) with
              Requires := [] } := by
        rw [subSt2, subgraphRequiredByLoop_node_preserved
          (BuildDependencyGraph modFiles).2.nextNode
          ((BuildDependencyGraph modFiles).2.node c).RequiredBy
          (subSt1 (BuildDependencyGraph modFiles).2 c) cid hlt]
        exact hnode1
      refine ⟨((BuildDependencyGraph modFiles).2.vertex vid).targetModule,
        Or.inr (Or.inl ⟨vid, hvid, rfl⟩), ?_, ?_, hwpres _⟩
      · rw [← hcid, hnode2]
      · rw [← hcid, hnode2]
    · have hc : p.1 = ((BuildDependencyGraph modFiles).2.node c).ModuleName := by
        rcases htri with hh | hh | hh
        · exact hh
        · exact absurd hh hR
        · exact absurd hh hB
      have hB' : p.1 ∉ targetNames (subSt1 (BuildDependencyGraph modFiles).2 c).2
          ((BuildDependencyGraph modFiles).2.node c).RequiredBy := by
        rw [hnames2]
        exact hB
      have hR' : p.1 ∉ targetNames
          (subCenterHeap (BuildDependencyGraph modFiles).2 c)
          ((BuildDependencyGraph modFiles).2.node c).Requires := by
        rw [hnames1]
        exact hR
      have hlook0 : mapLookup
          [(((BuildDependencyGraph modFiles).2.node c).ModuleName,
            (BuildDependencyGraph modFiles).2.nextNode)] p.1
          = some (BuildDependencyGraph modFiles).2.nextNode := by
        rw [hc]
        simp [mapLookup]
      have hlook1 : mapLookup (subSt1 (BuildDependencyGraph modFiles).2 c).1 p.1
          = some (BuildDependencyGraph modFiles).2.nextNode := by
        rw [subSt1, subgraphRequiresLoop_lookup_frame _ _ p.1 (by exact hpre1) hR']
        exact hlook0
      have hlook2 : mapLookup (subSt2 (BuildDependencyGraph modFiles).2 c).1 p.1
          = some (BuildDependencyGraph modFiles).2.nextNode := by
        rw [subSt2, subgraphRequiredByLoop_lookup_frame _ _ _ p.1 hpre2 hB']
        exact hlook1
      have hcid : (BuildDependencyGraph modFiles).2.nextNode = p.2 := by
        rw [hlookp] at hlook2
        exact (Option.some.inj hlook2).symm
      have hnode2 : (subSt2 (BuildDependencyGraph modFiles).2 c).2.node
          (BuildDependencyGraph modFiles).2.nextNode
          = { (BuildDependencyGraph modFiles).2.node c with Highlight := true } := by
        rw [subSt2, subgraphRequiredByLoop_node_preserved
          (BuildDependencyGraph modFiles).2.nextNode
          ((BuildDependencyGraph modFiles).2.node c).RequiredBy
          (subSt1 (BuildDependencyGraph modFiles).2 c)
          (BuildDependencyGraph modFiles).2.nextNode (by omega)]
        exact hcenterpres
      refine ⟨c, Or.inl rfl, ?_, ?_, hwpres _⟩
      · rw [← hcid, hnode2]
      · rw [← hcid, hnode2]

/-- Claim C2 (amended): in every graph built by BuildDependencyGraph, every
edge — through Requires and through RequiredBy alike — targets a node bound
in the same graph's mapping.  In a graph derived by SubgraphFrom, this holds
for every Requires edge provided the center's direct-dependency names are
pairwise distinct and the center name, the dependency names and the
dependent names do not overlap; the RequiredBy sequences of the derived
copies are shared with the original nodes and may reference original-graph
nodes outside the derived mapping (see the counterexample). -/
theorem C2_requires_targets_in_map (modFiles : List ModsModule) :
    (∀ p ∈ (BuildDependencyGraph modFiles).1.modulesMap,
      (∀ vid ∈ ((BuildDependencyGraph modFiles).2.node p.2).Requires,
        inMap (BuildDependencyGraph modFiles).1.modulesMap
          (((BuildDependencyGraph modFiles).2.vertex vid).targetModule)) ∧
      (∀ vid ∈ ((BuildDependencyGraph modFiles).2.node p.2).RequiredBy,
        inMap (BuildDependencyGraph modFiles).1.modulesMap
          (((BuildDependencyGraph modFiles).2.vertex vid).targetModule))) ∧
    (∀ (c : Nat) (g' : DependencyGraph) (h' : Heap),
      SubgraphFrom (BuildDependencyGraph modFiles).1 (BuildDependencyGraph modFiles).2 c
        = some (g', h') →
      (targetNames (BuildDependencyGraph modFiles).2
        ((BuildDependencyGraph modFiles).2.node c).Requires).Nodup →
      ((BuildDependencyGraph modFiles).2.node c).ModuleName
        ∉ targetNames (BuildDependencyGraph modFiles).2
            ((BuildDependencyGraph modFiles).2.node c).Requires →
      ((BuildDependencyGraph modFiles).2.node c).ModuleName
        ∉ targetNames (BuildDependencyGraph modFiles).2
            ((BuildDependencyGraph modFiles).2.node c).RequiredBy →
      (∀ n ∈ targetNames (BuildDependencyGraph modFiles).2
          ((BuildDependencyGraph modFiles).2.node c).Requires,
        n ∉ targetNames (BuildDependencyGraph modFiles).2
            ((BuildDependencyGraph modFiles).2.node c).RequiredBy) →
      ∀ p ∈ g'.modulesMap, ∀ vid ∈ (h'.node p.2).Requires,
        inMap g'.modulesMap ((h'.vertex vid).targetModule)) := by
  have hwf := BuildDependencyGraph_HeapWF modFiles
  constructor
  · intro p hp
    exact ⟨hwf.reqTgtInMap p hp, hwf.rbTgtInMap p hp⟩
  · intro c g' h' hsome hNodupR hcR hcB hRB
    rw [SubgraphFrom_eq _ _ c rfl] at hsome
    injection hsome with hpair
    have hg : g' = NewDependencyGraph (subSt2 (BuildDependencyGraph modFiles).2 c).2
        (subSt2 (BuildDependencyGraph modFiles).2 c).1 true := (congrArg Prod.fst hpair).symm
    have hh : h' = (subSt2 (BuildDependencyGraph modFiles).2 c).2 :=
      (congrArg Prod.snd hpair).symm
    subst hg
    subst hh
    have hRoles : ∀ vid ∈ ((BuildDependencyGraph modFiles).2.node c).RequiredBy,
        vid ∉ ((BuildDependencyGraph modFiles).2.node c).Requires :=
      fun vid hvid hreq => hwf.rolesDisjoint c c vid hreq hvid
    obtain ⟨hpre1, hnames1, hpre2, hnames2, hvertB, hnv1, hnn1, hnodepres, hcenterpres⟩ :=
      subgraph_setup (BuildDependencyGraph modFiles).2 c (hwf.reqNodup c)
        (hwf.reqVidBound c) (hwf.reqTgtBound c) (hwf.rbVidBound c) (hwf.rbTgtBound c)
        hRoles
    -- the center binding survives both loops
    have hcB' : ((BuildDependencyGraph modFiles).2.node c).ModuleName
        ∉ targetNames (subSt1 (BuildDependencyGraph modFiles).2 c).2
          ((BuildDependencyGraph modFiles).2.node c).RequiredBy := by
      rw [hnames2]
      exact hcB
    have hcR' : ((BuildDependencyGraph modFiles).2.node c).ModuleName
        ∉ targetNames (subCenterHeap (BuildDependencyGraph modFiles).2 c)
          ((BuildDependencyGraph modFiles).2.node c).Requires := by
      rw [hnames1]
      exact hcR
    have hlookCenter : mapLookup (subSt2 (BuildDependencyGraph modFiles).2 c).1
        ((BuildDependencyGraph modFiles).2.node c).ModuleName
        = some (BuildDependencyGraph modFiles).2.nextNode := by
      rw [subSt2, subgraphRequiredByLoop_lookup_frame _ _ _ _ hpre2 hcB']
      rw [subSt1, subgraphRequiresLoop_lookup_frame _ _ _ (by exact hpre1) hcR']
      simp [mapLookup]
    have hinCenter : inMap (subSt2 (BuildDependencyGraph modFiles).2 c).1
        (BuildDependencyGraph modFiles).2.nextNode :=
      mapLookup_inMap _ _ _ hlookCenter
    intro p hp
    have hp' : p ∈ (subSt2 (BuildDependencyGraph modFiles).2 c).1 := hp
    have hlookp : mapLookup (subSt2 (BuildDependencyGraph modFiles).2 c).1 p.1
        = some p.2 :=
      mem_mapLookup_of_nodup _ p.1 p.2 (subSt2_keysNodup _ c) hp'
    have hsome' : (mapLookup (subSt2 (BuildDependencyGraph modFiles).2 c).1 p.1).isSome := by
      rw [hlookp]
      rfl
    have htri := (subSt2_keys (BuildDependencyGraph modFiles).2 c (hwf.reqNodup c)
        (hwf.reqVidBound c) (hwf.reqTgtBound c) (hwf.rbVidBound c) (hwf.rbTgtBound c)
        hRoles p.1).mp hsome'
    by_cases hB : p.1 ∈ targetNames (BuildDependencyGraph modFiles).2
        ((BuildDependencyGraph modFiles).2.node c).RequiredBy
    · -- dependent copy: its single edge points back at the center copy
      have hB' : p.1 ∈ targetNames (subSt1 (BuildDependencyGraph modFiles).2 c).2
          ((BuildDependencyGraph modFiles).2.node c).RequiredBy := by
        rw [hnames2]
        exact hB
      obtain ⟨vid, hvid, hname, cid, evid, hle, hlook, hnode, hvert⟩ :=
        subgraphRequiredByLoop_value (BuildDependencyGraph modFiles).2.nextNode
          ((BuildDependencyGraph modFiles).2.node c).RequiredBy
          (subSt1 (BuildDependencyGraph modFiles).2 c) hpre2 p.1 hB'
      have hlook2 : mapLookup (subSt2 (BuildDependencyGraph modFiles).2 c).1 p.1
          = some cid := hlook
      have hcid : cid = p.2 := by
        rw [hlookp] at hlook2
        exact (Option.some.inj hlook2).symm
      have hnode2 : (subSt2 (BuildDependencyGraph modFiles).2 c).2.node cid
          = { (subSt1 (BuildDependencyGraph modFiles).2 c).2.node
                (((subSt1 (BuildDependencyGraph modFiles).2 c).2.vertex vid).targetModule)
              with Requires := [evid] } := hnode
      have hvert2 : (subSt2 (BuildDependencyGraph modFiles).2 c).2.vertex evid
          = { targetModule := (BuildDependencyGraph modFiles).2.nextNode,
              targetVersion :=
                ((subSt1 (BuildDependencyGraph modFiles).2 c).2.vertex vid).targetVersion }
          := hvert
      intro vid' hvid'
      rw [← hcid, hnode2] at hvid'
      have hvv : vid' = evid := by
        have : vid' ∈ [evid] := hvid'
        rw [List.mem_singleton] at this
        exact this
      rw [hvv, hvert2]
      exact hinCenter
    · by_cases hR : p.1 ∈ targetNames (BuildDependencyGraph modFiles).2
          ((BuildDependencyGraph modFiles).2.node c).Requires
      · -- dependency copy: no outgoing edges at all
        have hR' : p.1 ∈ targetNames
            (subCenterHeap (BuildDependencyGraph modFiles).2 c)
            ((BuildDependencyGraph modFiles).2.node c).Requires := by
          rw [hnames1]
          exact hR
        obtain ⟨vid, hvid, hname, cid, hle, hlt, hlook, hnode⟩ :=
          subgraphRequiresLoop_value_byName
            ((BuildDependencyGraph modFiles).2.node c).Requires
            ([(((BuildDependencyGraph modFiles).2.node c).ModuleName,
                (BuildDependencyGraph modFiles).2.nextNode)],
              subCenterHeap (BuildDependencyGraph modFiles).2 c) hpre1 p.1 hR'
        have hB' : p.1 ∉ targetNames (subSt1 (BuildDependencyGraph modFiles).2 c).2
            ((BuildDependencyGraph modFiles).2.node c).RequiredBy := by
          rw [hnames2]
          exact hB
        have hlook2 : mapLookup (subSt2 (BuildDependencyGraph modFiles).2 c).1 p.1
            = some cid := by
          rw [subSt2, subgraphRequiredByLoop_lookup_frame _ _ _ p.1 hpre2 hB']
          exact hlook
        have hcid : cid = p.2 := by
          rw [hlookp] at hlook2
          exact (Option.some.inj hlook2).symm
        have hnode2 : (subSt2 (BuildDependencyGraph modFiles).2 c).2.node cid
            = { (subCenterHeap (BuildDependencyGraph modFiles).2 c).node
                  (((subCenterHeap (BuildDependencyGraph modFiles).2 c).vertex
                    vid).targetModule)
                with Requires := [] } := by
          rw [subSt2, subgraphRequiredByLoop_node_preserved
            (BuildDependencyGraph modFiles).2.nextNode
            ((BuildDependencyGraph modFiles).2.node c).RequiredBy
            (subSt1 (BuildDependencyGraph modFiles).2 c) cid hlt]
          exact hnode
        intro vid' hvid'
        rw [← hcid, hnode2] at hvid'
        simp at hvid'
      · -- the center copy itself
        have hc : p.1 = ((BuildDependencyGraph modFiles).2.node c).ModuleName := by
          rcases htri with hh | hh | hh
          · exact hh
          · exact absurd hh hR
          · exact absurd hh hB
        have hNp : (BuildDependencyGraph modFiles).2.nextNode = p.2 := by
          rw [hc] at hlookp
          rw [hlookCenter] at hlookp
          exact Option.some.inj hlookp
        have hnodeN : (subSt2 (BuildDependencyGraph modFiles).2 c).2.node
            (BuildDependencyGraph modFiles).2.nextNode
            = { (BuildDependencyGraph modFiles).2.node c with Highlight := true } := by
          rw [subSt2, subgraphRequiredByLoop_node_preserved
            (BuildDependencyGraph modFiles).2.nextNode
            ((BuildDependencyGraph modFiles).2.node c).RequiredBy
            (subSt1 (BuildDependencyGraph modFiles).2 c)
            (BuildDependencyGraph modFiles).2.nextNode (by omega)]
          exact hcenterpres
        intro vid hvidR
        rw [← hNp, hnodeN] at hvidR
        have hvidR' : vid ∈ ((BuildDependencyGraph modFiles).2.node c).Requires := hvidR
        -- the retargeted vertex points at the dependency clone bound in the mapping
        obtain ⟨cid, hle, hlt, hvert1, hnode1, hlook1⟩ :=
          subgraphRequiresLoop_value ((BuildDependencyGraph modFiles).2.node c).Requires
            ([(((BuildDependencyGraph modFiles).2.node c).ModuleName,
                (BuildDependencyGraph modFiles).2.nextNode)],
              subCenterHeap (BuildDependencyGraph modFiles).2 c) hpre1 vid hvidR'
        have hNodupR' : (targetNames
            (subCenterHeap (BuildDependencyGraph modFiles).2 c)
            ((BuildDependencyGraph modFiles).2.node c).Requires).Nodup := by
          rw [hnames1]
          exact hNodupR
        have hlook1' := hlook1 hNodupR'
        have hnameq : ((subCenterHeap (BuildDependencyGraph modFiles).2 c).node
            (((subCenterHeap (BuildDependencyGraph modFiles).2 c).vertex vid).targetModule)).ModuleName
            = ((BuildDependencyGraph modFiles).2.node
              (((BuildDependencyGraph modFiles).2.vertex vid).targetModule)).ModuleName := by
          have htb := hwf.reqTgtBound c vid hvidR'
          rw [subCenterHeap_vertex, subCenterHeap_node, if_neg (by omega)]
        rw [hnameq] at hlook1'
        have hmemn : ((BuildDependencyGraph modFiles).2.node
            (((BuildDependencyGraph modFiles).2.vertex vid).targetModule)).ModuleName
            ∈ targetNames (BuildDependencyGraph modFiles).2
              ((BuildDependencyGraph modFiles).2.node c).Requires := by
          unfold targetNames
          exact List.mem_map.mpr ⟨vid, hvidR', rfl⟩
        have hnB2 : ((BuildDependencyGraph modFiles).2.node
            (((BuildDependencyGraph modFiles).2.vertex vid).targetModule)).ModuleName
            ∉ targetNames (subSt1 (BuildDependencyGraph modFiles).2 c).2
              ((BuildDependencyGraph modFiles).2.node c).RequiredBy := by
          rw [hnames2]
          exact hRB _ hmemn
        have hlook2 : mapLookup (subSt2 (BuildDependencyGraph modFiles).2 c).1
            (((BuildDependencyGraph modFiles).2.node
              (((BuildDependencyGraph modFiles).2.vertex vid).targetModule)).ModuleName)
            = some cid := by
          rw [subSt2, subgraphRequiredByLoop_lookup_frame _ _ _ _ hpre2 hnB2]
          exact hlook1'
        have hvert2 : (subSt2 (BuildDependencyGraph modFiles).2 c).2.vertex vid
            = { (subCenterHeap (BuildDependencyGraph modFiles).2 c).vertex vid with
                targetModule := cid } := by
          rw [subSt2, subgraphRequiredByLoop_vertex_preserved _ _ _ vid (by
            rw [hnv1]
            exact hwf.reqVidBound c vid hvidR')]
          exact hvert1
        rw [hvert2]
        exact mapLookup_inMap _ _ _ hlook2

/-- Witness for the amended C2 at the straight-line build and its subgraph
from center A: the full graph's edge targets are mapped, and in the derived
graph the center copy's retargeted edge reaches the mapped dependency
clone. -/
theorem C2_witness :
    (("A", 0) ∈ (BuildDependencyGraph [modFileA, modFileB]).1.modulesMap ∧
      0 ∈ ((BuildDependencyGraph [modFileA, modFileB]).2.node 0).Requires ∧
      inMap (BuildDependencyGraph [modFileA, modFileB]).1.modulesMap
        (((BuildDependencyGraph [modFileA, modFileB]).2.vertex 0).targetModule)) ∧
    (∃ g' h', SubgraphFrom (BuildDependencyGraph [modFileA, modFileB]).1
        (BuildDependencyGraph [modFileA, modFileB]).2 0 = some (g', h') ∧
      ("A", 2) ∈ g'.modulesMap ∧ 0 ∈ (h'.node 2).Requires ∧
      inMap g'.modulesMap ((h'.vertex 0).targetModule)) :=
  ⟨⟨by decide, by decide,
     ((C2_requires_targets_in_map [modFileA, modFileB]).1 ("A", 0) (by decide)).1
       0 (by decide)⟩,
   ⟨_, _, rfl, by decide, by decide,
     (C2_requires_targets_in_map [modFileA, modFileB]).2 0 _ _ rfl (by decide) (by decide)
       (by decide) (by decide) ("A", 2) (by decide) 0 (by decide)⟩⟩

/-- Witness for the amended C3 at the straight-line build, center A. -/
theorem C3_witness :
    ∃ g' h', SubgraphFrom (BuildDependencyGraph [modFileA, modFileB]).1
        (BuildDependencyGraph [modFileA, modFileB]).2 0 = some (g', h') ∧
      ((∀ n : String,
        (mapLookup g'.modulesMap n).isSome ↔
          (n = ((BuildDependencyGraph [modFileA, modFileB]).2.node 0).ModuleName ∨
            n ∈ targetNames (BuildDependencyGraph [modFileA, modFileB]).2
                  ((BuildDependencyGraph [modFileA, modFileB]).2.node 0).Requires ∨
            n ∈ targetNames (BuildDependencyGraph [modFileA, modFileB]).2
                  ((BuildDependencyGraph [modFileA, modFileB]).2.node 0).RequiredBy)) ∧
      (∀ n ∈ targetNames (BuildDependencyGraph [modFileA, modFileB]).2
          ((BuildDependencyGraph [modFileA, modFileB]).2.node 0).Requires,
        n ∉ targetNames (BuildDependencyGraph [modFileA, modFileB]).2
            ((BuildDependencyGraph [modFileA, modFileB]).2.node 0).RequiredBy →
        ∃ id, mapLookup g'.modulesMap n = some id ∧ (h'.node id).Requires = [])) :=
  ⟨_, _, rfl, C3_subgraph_node_set [modFileA, modFileB] 0 _ _ rfl⟩

/-- Witness for C10 at the straight-line build, center A: the copy of B in
the derived graph keeps B's original RequiredBy sequence. -/
theorem C10_witness :
    ∃ g' h', SubgraphFrom (BuildDependencyGraph [modFileA, modFileB]).1
        (BuildDependencyGraph [modFileA, modFileB]).2 0 = some (g', h') ∧
      ("B", 3) ∈ g'.modulesMap ∧
      (∃ orig : Nat,
        (orig = 0 ∨
          (∃ vid ∈ ((BuildDependencyGraph [modFileA, modFileB]).2.node 0).Requires,
            orig = ((BuildDependencyGraph [modFileA, modFileB]).2.vertex vid).targetModule) ∨
          (∃ vid ∈ ((BuildDependencyGraph [modFileA, modFileB]).2.node 0).RequiredBy,
            orig = ((BuildDependencyGraph [modFileA, modFileB]).2.vertex vid).targetModule)) ∧
        (h'.node 3).RequiredBy
          = ((BuildDependencyGraph [modFileA, modFileB]).2.node orig).RequiredBy ∧
        (h'.node 3).ModuleName
          = ((BuildDependencyGraph [modFileA, modFileB]).2.node orig).ModuleName ∧
        (∀ w ∈ ((BuildDependencyGraph [modFileA, modFileB]).2.node orig).RequiredBy,
          h'.vertex w = (BuildDependencyGraph [modFileA, modFileB]).2.vertex w)) :=
  ⟨_, _, rfl, by decide,
    C10_clone_shares_requiredBy [modFileA, modFileB] 0 _ _ rfl ("B", 3) (by decide)⟩
